import Mathlib

/-!
Shallow embedding of the architectural execution engine of the swerv-ISS
RISC-V instruction-set simulator (single hart, RV32I/RV64I + M + C).

The repository ships the interface header `Core.hpp`; the execution
semantics themselves are specified in `spec.md` (§3–§4.7).  Every
definition below that embeds behaviour not present in the header is
modelled from the spec and says so in its doc comment.

Machine integers are `Nat` kept below `2 ^ xlen`; the signed view is
`Int` obtained by two's-complement reinterpretation.  Fallible
operations return `Option` / a `Bool` success flag exactly where the
C++ interface does.
-/

namespace WdRiscv

/-! ## Cause codes (from `Core.hpp`, enums `InterruptCause` / `ExceptionCause`) -/

/-- `ExceptionCause::ILLEGAL_INST = 2` from `Core.hpp`. -/
def ILLEGAL_INST : Nat := 2

/-- `ExceptionCause::INST_ADDR_MISALIGNED = 0` from `Core.hpp`. -/
def INST_ADDR_MISALIGNED : Nat := 0

/-- `ExceptionCause::INST_ACCESS_FAULT = 1` from `Core.hpp`. -/
def INST_ACCESS_FAULT : Nat := 1

/-- `ExceptionCause::BREAKPOINT = 3` from `Core.hpp`. -/
def BREAKPOINT : Nat := 3

/-- `ExceptionCause::LOAD_ADDR_MISALIGNED = 4` from `Core.hpp`. -/
def LOAD_ADDR_MISALIGNED : Nat := 4

/-- `ExceptionCause::LOAD_ACCESS_FAULT = 5` from `Core.hpp`. -/
def LOAD_ACCESS_FAULT : Nat := 5

/-- `ExceptionCause::STORE_ADDR_MISALIGNED = 6` from `Core.hpp`. -/
def STORE_ADDR_MISALIGNED : Nat := 6

/-- `ExceptionCause::STORE_ACCESS_FAULT = 7` from `Core.hpp`. -/
def STORE_ACCESS_FAULT : Nat := 7

/-- `ExceptionCause::U_ENV_CALL = 8`, `S_ENV_CALL = 9`, `M_ENV_CALL = 11`. -/
def U_ENV_CALL : Nat := 8

/-- `ExceptionCause::S_ENV_CALL = 9` from `Core.hpp`. -/
def S_ENV_CALL : Nat := 9

/-- `ExceptionCause::M_ENV_CALL = 11` from `Core.hpp`. -/
def M_ENV_CALL : Nat := 11

/-- Privilege modes, encoded as in the RISC-V privileged spec:
user = 0, supervisor = 1, machine = 3 (spec §3: privilege ∈ {U,S,M}). -/
def USER_MODE : Nat := 0

/-- Supervisor privilege encoding. -/
def SUPERVISOR_MODE : Nat := 1

/-- Machine privilege encoding. -/
def MACHINE_MODE : Nat := 3

/-! ## Two's-complement helpers -/

/-- Mask a value to the register width: the unsigned register value. -/
def maskToXlen (xlen v : Nat) : Nat := v % 2 ^ xlen

/-- Bitwise complement within `xlen` bits (`~v` on `URV`): XOR with
the all-ones word. -/
def natNot (xlen v : Nat) : Nat := (2 ^ xlen - 1) ^^^ v

/-- Signed (two's-complement) view of an `xlen`-wide unsigned value
(`SRV` view of a `URV` value in `Core.hpp`). -/
def toSigned (xlen v : Nat) : Int :=
  if v < 2 ^ (xlen - 1) then (v : Int) else (v : Int) - ((2 ^ xlen : Nat) : Int)

/-- Re-interpret a signed value as an `xlen`-wide unsigned register value. -/
def toURV (xlen : Nat) (i : Int) : Nat := (i % ((2 ^ xlen : Nat) : Int)).toNat

/-- Smallest signed value of width `xlen` (INT_MIN). -/
def minSigned (xlen : Nat) : Int := -((2 ^ (xlen - 1) : Nat) : Int)

/-- Extract bit `i` of `v` as 0 or 1. -/
def bit (v i : Nat) : Nat := v / 2 ^ i % 2

/-- Extract bits `lo .. lo+len-1` of `v` (a `len`-bit field). -/
def bits (v lo len : Nat) : Nat := v / 2 ^ lo % 2 ^ len

/-! ## Integer register file (spec §4.2, `IntRegs.hpp` interface)

Modelled from the spec: "Register 0 reads as zero; writes to it are
silently discarded."  The backing store is a list of 32 (or
`intRegCount`) words; `write` guards index 0, so the invariant
`intRegs[0] == 0` is maintained by construction provided it holds at
reset. -/

/-- Modelled from the spec: `IntRegs::read(i)` returns the stored word
(the store at index 0 is kept at zero by the write guard). -/
def intRegsRead (regs : List Nat) (i : Nat) : Nat := regs.getD i 0

/-- Modelled from the spec: `IntRegs::write(i, v)` is a no-op when
`i = 0`; otherwise it replaces the stored word. -/
def intRegsWrite (regs : List Nat) (i v : Nat) : List Nat :=
  if i = 0 then regs else regs.set i v

/-! ## CSR file (spec §3 entity table and §4.3, `CsRegs.hpp` interface) -/

/-- One control-and-status register: number, value and access
attributes (spec §3, CSR entity row). -/
structure Csr where
  number : Nat
  value : Nat
  writeMask : Nat
  resetValue : Nat
  minPriv : Nat
  isReadOnly : Bool
  deriving Repr, DecidableEq

/-- Standard M-mode CSR numbers used below (spec §4.3 minimum set). -/
def MSTATUS_NUM : Nat := 0x300

/-- `misa` CSR number. -/
def MISA_NUM : Nat := 0x301

/-- `mie` CSR number. -/
def MIE_NUM : Nat := 0x304

/-- `mtvec` CSR number. -/
def MTVEC_NUM : Nat := 0x305

/-- `mscratch` CSR number. -/
def MSCRATCH_NUM : Nat := 0x340

/-- `mepc` CSR number. -/
def MEPC_NUM : Nat := 0x341

/-- `mcause` CSR number. -/
def MCAUSE_NUM : Nat := 0x342

/-- `mtval` CSR number. -/
def MTVAL_NUM : Nat := 0x343

/-- `mip` CSR number. -/
def MIP_NUM : Nat := 0x344

/-- `mvendorid` CSR number (read-only: top two bits of 0xF11 are 11). -/
def MVENDORID_NUM : Nat := 0xF11

/-- `mhartid` CSR number (read-only). -/
def MHARTID_NUM : Nat := 0xF14

/-- Find a registered CSR by number. -/
def findCsr (csrs : List Csr) (n : Nat) : Option Csr :=
  csrs.find? (fun r => r.number = n)

/-- Modelled from the spec (§4.3): `CsRegs::read(csr, currentPriv)`
fails (illegal instruction) if the CSR is unknown or the current
privilege is below the CSR's minimum privilege. -/
def csrRead (csrs : List Csr) (n priv : Nat) : Option Nat :=
  match findCsr csrs n with
  | none => none
  | some r => if priv < r.minPriv then none else some r.value

/-- Modelled from the spec (§4.3): `CsRegs::write(csr, src, currentPriv)`
fails additionally if the CSR is read-only; otherwise it applies the
write-mask: `new = (old & ~writeMask) | (src & writeMask)` (§3). -/
def csrWrite (xlen : Nat) (csrs : List Csr) (n src priv : Nat) : Option (List Csr) :=
  match findCsr csrs n with
  | none => none
  | some r =>
    if priv < r.minPriv then none
    else if r.isReadOnly then none
    else some (csrs.map (fun q =>
      if q.number = n then
        { q with value := q.value &&& natNot xlen q.writeMask ||| (src &&& q.writeMask) }
      else q))

/-- Raw CSR update used by the trap unit (spec §4.6 writes `mcause`,
`mtval`, `mepc`, `mstatus` directly, not through the instruction-level
permission checks). -/
def csrPoke (csrs : List Csr) (n v : Nat) : List Csr :=
  csrs.map (fun q => if q.number = n then { q with value := v } else q)

/-- Value of a CSR by number, 0 if absent (helper for stating theorems). -/
def csrValue (csrs : List Csr) (n : Nat) : Nat :=
  match findCsr csrs n with
  | none => 0
  | some r => r.value

/-! ## Core state (`Core.hpp` private members) -/

/-- Architectural state of one hart, mirroring the data members of
`Core<URV>` in `Core.hpp`: memory, integer register file, CSR file,
`pc_`, `currPc_`, stop address, tohost address, retirement and cycle
counters, privilege mode.  `xlen` is the template width parameter
(`8*sizeof(URV)`, i.e. `mxlen_`). -/
structure Core where
  xlen : Nat
  mem : List Nat
  intRegs : List Nat
  csRegs : List Csr
  pc : Nat
  currPc : Nat
  stopAddr : Nat
  stopAddrValid : Bool
  toHost : Nat
  toHostValid : Bool
  retiredInsts : Nat
  cycleCount : Nat
  privMode : Nat
  deriving Repr, DecidableEq

/-- `Core::intRegCount()`: size of the integer register file. -/
def Core.intRegCount (c : Core) : Nat := c.intRegs.length

/-- `Core::memorySize()`: size of memory in bytes. -/
def Core.memorySize (c : Core) : Nat := c.mem.length

/-- Read of integer register `i` as seen by the executor. -/
def Core.intRead (c : Core) (i : Nat) : Nat := intRegsRead c.intRegs i

/-- `Core::setToHostAddress` from `Core.hpp`. -/
def Core.setToHostAddress (c : Core) (address : Nat) : Core :=
  { c with toHost := address, toHostValid := true }

/-- `Core::clearToHostAddress` from `Core.hpp`. -/
def Core.clearToHostAddress (c : Core) : Core :=
  { c with toHostValid := false }

/-- `Core::setStopAddress` from `Core.hpp`. -/
def Core.setStopAddress (c : Core) (address : Nat) : Core :=
  { c with stopAddr := address, stopAddrValid := true }

/-! ## Memory (spec §4.1)

Modelled from the spec: a flat little-endian byte list; multi-byte
accesses decompose into byte sequences; out-of-bounds accesses fail
(the opcode handlers turn the failure into the proper access fault). -/

/-- Read `n` little-endian bytes starting at `addr`; fails when any
byte is out of bounds. -/
def memReadBytes (mem : List Nat) (addr n : Nat) : Option Nat :=
  match n with
  | 0 => some 0
  | m + 1 =>
    if h : addr < mem.length then
      match memReadBytes mem (addr + 1) m with
      | none => none
      | some rest => some (mem.get ⟨addr, h⟩ + 256 * rest)
    else none

/-- Write the `n` little-endian bytes of `v` starting at `addr`; fails
when any byte is out of bounds. -/
def memWriteBytes (mem : List Nat) (addr n v : Nat) : Option (List Nat) :=
  match n with
  | 0 => some mem
  | m + 1 =>
    if addr < mem.length then
      memWriteBytes (mem.set addr (v % 256)) (addr + 1) m (v / 256)
    else none

/-! ## Decoded operations

One constructor per opcode entry point declared in `Core.hpp`
(`execBeq` … `execRemu`, plus the rv64 loads/stores).  Immediates and
offsets are carried already sign-extended, as `Int` (`SRV` in the
header); unsigned immediates were sign-extended then reinterpreted, so
a single signed field is faithful. -/
/-- Branch comparison selector (`execBeq` … `execBgeu`). -/
inductive BrOp where
  | beq | bne | blt | bltu | bge | bgeu
  deriving Repr, DecidableEq

/-- Register-register ALU selector (`execAdd` … `execAnd`). -/
inductive AluOp where
  | add | sub | sll | slt | sltu | xor | srl | sra | or | and
  deriving Repr, DecidableEq

/-- Register-immediate ALU selector (`execAddi` … `execAndi`). -/
inductive AluImmOp where
  | addi | slti | sltiu | xori | ori | andi
  deriving Repr, DecidableEq

/-- Immediate shift selector (`execSlli`, `execSrli`, `execSrai`). -/
inductive ShiftOp where
  | slli | srli | srai
  deriving Repr, DecidableEq

/-- M-extension selector (`execMul` … `execRemu`). -/
inductive MulOp where
  | mul | mulh | mulhsu | mulhu | div | divu | rem | remu
  deriving Repr, DecidableEq

/-- Load selector (`execLb` … `execLhu`, rv64 `execLwu`/`execLd`). -/
inductive LoadOp where
  | lb | lh | lw | lbu | lhu | lwu | ld
  deriving Repr, DecidableEq

/-- Store selector (`execSb`, `execSh`, `execSw`, rv64 `execSd`). -/
inductive StoreOp where
  | sb | sh | sw | sd
  deriving Repr, DecidableEq

/-- CSR opcode selector (`execCsrrw`/`execCsrrs`/`execCsrrc` and the
immediate forms, distinguished by the `imm` flag of `Instr.csr`). -/
inductive CsrOp where
  | rw | rs | rc
  deriving Repr, DecidableEq

/-- System instruction selector (`execEcall` … `execWfi`, `execFencei`). -/
inductive SysOp where
  | ecall | ebreak | mret | uret | sret | wfi | fencei
  deriving Repr, DecidableEq

/-- A decoded operation.  Each `(family, op)` pair corresponds to one
`exec…` entry point declared in `Core.hpp`; fields are the entry
point's arguments.  Immediates and offsets are carried already
sign-extended as `Int` (`SRV` in the header).  In `csr`, `src` is the
rs1 register index when `imm = false` and the zero-extended 5-bit
immediate value when `imm = true`. -/
inductive Instr where
  | branch (op : BrOp) (rs1 rs2 : Nat) (offset : Int)
  | jal (rd : Nat) (offset : Int)
  | jalr (rd rs1 : Nat) (offset : Int)
  | lui (rd : Nat) (imm : Int)
  | auipc (rd : Nat) (imm : Int)
  | alui (op : AluImmOp) (rd rs1 : Nat) (imm : Int)
  | shifti (op : ShiftOp) (rd rs1 amount : Nat)
  | alu (op : AluOp) (rd rs1 rs2 : Nat)
  | muldiv (op : MulOp) (rd rs1 rs2 : Nat)
  | load (op : LoadOp) (rd rs1 : Nat) (imm : Int)
  | store (op : StoreOp) (rs1 rs2 : Nat) (imm : Int)
  | fence (pred succ : Nat)
  | sys (op : SysOp)
  | csr (op : CsrOp) (imm : Bool) (rd csrn src : Nat)
  | illegal
  deriving Repr, DecidableEq

/-! ## Trap unit (spec §4.6) -/

/-- Sign-extend a `w`-bit value to an `xlen`-wide register value. -/
def sext (w xlen v : Nat) : Nat := toURV xlen (toSigned w v)

/-- `mstatus.MIE` field (bit 3). -/
def mstatusMIE (v : Nat) : Nat := v / 8 % 2

/-- `mstatus.MPIE` field (bit 7). -/
def mstatusMPIE (v : Nat) : Nat := v / 128 % 2

/-- `mstatus.MPP` field (bits 11..12). -/
def mstatusMPP (v : Nat) : Nat := v / 2048 % 4

/-- Modelled from the spec (§4.6 step 4): the `mstatus` value after
trap entry: `MPIE ← MIE`, `MIE ← 0`, `MPP ← currentPriv`; all other
fields unchanged. -/
def trapMstatus (old priv : Nat) : Nat :=
  old % 8
    + old / 16 % 8 * 16
    + old / 8 % 2 * 128
    + old / 256 % 8 * 256
    + priv % 4 * 2048
    + old / 8192 * 8192

/-- Modelled from the spec (§4.5 xRET): the `mstatus` value after MRET:
`MIE ← MPIE`, `MPIE ← 1`, `MPP ← U`; all other fields unchanged. -/
def mretMstatus (old : Nat) : Nat :=
  old % 8
    + old / 128 % 2 * 8
    + old / 16 % 8 * 16
    + 128
    + old / 256 % 8 * 256
    + old / 8192 * 8192

/-- Modelled from the spec (§4.6): `Core::initiateTrap(interrupt,
cause, pcToSave, info)`.  Sets `mcause`, `mtval`, `mepc`, updates
`mstatus`, enters machine mode, and redirects the pc to the trap
vector (vectored mode applies to interrupts only). -/
def Core.initiateTrap (c : Core) (interrupt : Bool) (cause pcToSave info : Nat) : Core :=
  let causeVal := (if interrupt then 2 ^ (c.xlen - 1) else 0) ||| cause
  let newMstatus := trapMstatus (csrValue c.csRegs MSTATUS_NUM) c.privMode
  let mtvecVal := csrValue c.csRegs MTVEC_NUM
  let base := mtvecVal / 4 * 4
  let vectored := mtvecVal % 4 = 1
  let newPc := if interrupt ∧ vectored then base + 4 * cause else base
  { c with
    csRegs :=
      csrPoke (csrPoke (csrPoke (csrPoke c.csRegs
        MCAUSE_NUM causeVal) MTVAL_NUM info) MEPC_NUM pcToSave)
        MSTATUS_NUM newMstatus,
    privMode := MACHINE_MODE,
    pc := newPc }

/-- `Core::initiateException(cause, pc, info)` (synchronous trap). -/
def Core.initiateException (c : Core) (cause pc info : Nat) : Core :=
  c.initiateTrap false cause pc info

/-- `Core::initiateInterrupt(cause, pc)` (asynchronous trap). -/
def Core.initiateInterrupt (c : Core) (cause pc : Nat) : Core :=
  c.initiateTrap true cause pc 0

/-! ## Executor (spec §4.5; one function per `exec…` entry point)

Modelled from the spec: each opcode handler either retires (possibly
with a store effective address for the tohost check) or produces an
exception descriptor `{cause, info}` that the run loop routes into the
trap unit (spec §9, trap control flow). -/

/-- Result of one opcode handler: the updated core, an optional
exception descriptor `(cause, info)`, and, for a retired store, the
effective address written. -/
structure ExecOut where
  core : Core
  trap : Option (Nat × Nat)
  storeAddr : Option Nat
  deriving Repr, DecidableEq

/-- Write an integer register (masked to the register width, x0
guarded by the register file). -/
def Core.setReg (c : Core) (i v : Nat) : Core :=
  { c with intRegs := intRegsWrite c.intRegs i (maskToXlen c.xlen v) }

/-- Successful retirement without a store. -/
def retireOut (c : Core) : ExecOut := ⟨c, none, none⟩

/-- Exception descriptor outcome. -/
def trapOut (c : Core) (cause info : Nat) : ExecOut := ⟨c, some (cause, info), none⟩

/-- Branch condition (spec §4.5: SLT-style signed comparisons for
BLT/BGE, unsigned for BLTU/BGEU). -/
def brTaken (xlen : Nat) (op : BrOp) (a b : Nat) : Bool :=
  match op with
  | .beq => decide (a = b)
  | .bne => decide (a ≠ b)
  | .blt => decide (toSigned xlen a < toSigned xlen b)
  | .bltu => decide (a < b)
  | .bge => decide (toSigned xlen b ≤ toSigned xlen a)
  | .bgeu => decide (b ≤ a)

/-- Modelled from the spec (§4.5 Branches): target is
`currPc + offset`; with the C extension enabled the target need only
be 2-aligned, otherwise `INST_ADDR_MISALIGNED` with the target as
info. -/
def Core.execBranch (c : Core) (op : BrOp) (rs1 rs2 : Nat) (offset : Int) : ExecOut :=
  if brTaken c.xlen op (c.intRead rs1) (c.intRead rs2) then
    let targ := toURV c.xlen ((c.currPc : Int) + offset)
    if targ % 2 = 0 then retireOut { c with pc := targ }
    else trapOut c INST_ADDR_MISALIGNED targ
  else retireOut c

/-- Modelled from the spec (§4.5 JAL): link (`currPc + instSize`, i.e.
the post-fetch pc) is written to rd; the pc becomes
`currPc + offset`. -/
def Core.execJal (c : Core) (rd : Nat) (offset : Int) : ExecOut :=
  let c1 := c.setReg rd c.pc
  retireOut { c1 with pc := toURV c.xlen ((c.currPc : Int) + offset) }

/-- Modelled from the spec (§4.5 JALR): link is written to rd before
the target is installed (`rd == rs1` safe because rs1 is read first);
target is `(rs1 + offset) & ~1`. -/
def Core.execJalr (c : Core) (rd rs1 : Nat) (offset : Int) : ExecOut :=
  let v := c.intRead rs1
  let c1 := c.setReg rd c.pc
  let targ := toURV c.xlen ((v : Int) + offset)
  retireOut { c1 with pc := targ / 2 * 2 }

/-- Modelled from the spec (§4.5 LUI): `rd = imm << 12` with imm
sign-extended. -/
def Core.execLui (c : Core) (rd : Nat) (imm : Int) : ExecOut :=
  retireOut (c.setReg rd (toURV c.xlen (imm * 4096)))

/-- Modelled from the spec (§4.5 AUIPC): `rd = currPc + (imm << 12)`. -/
def Core.execAuipc (c : Core) (rd : Nat) (imm : Int) : ExecOut :=
  retireOut (c.setReg rd (toURV c.xlen ((c.currPc : Int) + imm * 4096)))

/-- Modelled from the spec (§4.5): register-immediate ALU operations;
SLTI compares signed, SLTIU unsigned (against the sign-extended then
reinterpreted immediate); logical ops use the reinterpreted
immediate. -/
def Core.execAluImm (c : Core) (op : AluImmOp) (rd rs1 : Nat) (imm : Int) : ExecOut :=
  let a := c.intRead rs1
  let iu := toURV c.xlen imm
  let v : Nat :=
    match op with
    | .addi => toURV c.xlen ((a : Int) + imm)
    | .slti => if toSigned c.xlen a < imm then 1 else 0
    | .sltiu => if a < iu then 1 else 0
    | .xori => a ^^^ iu
    | .ori => a ||| iu
    | .andi => a &&& iu
  retireOut (c.setReg rd v)

/-- Modelled from the spec (§4.5 Shifts): immediate shifts; SRAI acts
on the signed view. -/
def Core.execShiftImm (c : Core) (op : ShiftOp) (rd rs1 amount : Nat) : ExecOut :=
  let a := c.intRead rs1
  let v : Nat :=
    match op with
    | .slli => a * 2 ^ amount
    | .srli => a / 2 ^ amount
    | .srai => toURV c.xlen (Int.fdiv (toSigned c.xlen a) (2 ^ amount))
  retireOut (c.setReg rd v)

/-- Modelled from the spec (§4.5): register-register ALU operations;
shift amounts use the low 5 (RV32) or 6 (RV64) bits of rs2, i.e.
`rs2 mod xlen`; SRA acts on the signed view. -/
def Core.execAluReg (c : Core) (op : AluOp) (rd rs1 rs2 : Nat) : ExecOut :=
  let a := c.intRead rs1
  let b := c.intRead rs2
  let v : Nat :=
    match op with
    | .add => toURV c.xlen ((a : Int) + b)
    | .sub => toURV c.xlen ((a : Int) - b)
    | .sll => a * 2 ^ (b % c.xlen)
    | .slt => if toSigned c.xlen a < toSigned c.xlen b then 1 else 0
    | .sltu => if a < b then 1 else 0
    | .xor => a ^^^ b
    | .srl => a / 2 ^ (b % c.xlen)
    | .sra => toURV c.xlen (Int.fdiv (toSigned c.xlen a) (2 ^ (b % c.xlen)))
    | .or => a ||| b
    | .and => a &&& b
  retireOut (c.setReg rd v)

/-- Modelled from the spec (§4.5 Divide): `execDiv`.  Division by zero
yields an all-ones quotient; the signed-overflow case
(`INT_MIN / −1`) yields the dividend; otherwise C-style truncating
division.  No trap is raised. -/
def Core.execDiv (c : Core) (rd rs1 rs2 : Nat) : ExecOut :=
  let a := toSigned c.xlen (c.intRead rs1)
  let b := toSigned c.xlen (c.intRead rs2)
  let q : Int :=
    if b = 0 then -1
    else if a = minSigned c.xlen ∧ b = -1 then a
    else Int.tdiv a b
  retireOut (c.setReg rd (toURV c.xlen q))

/-- Modelled from the spec (§4.5 Divide): `execDivu`; division by zero
yields all-ones. -/
def Core.execDivu (c : Core) (rd rs1 rs2 : Nat) : ExecOut :=
  let a := c.intRead rs1
  let b := c.intRead rs2
  let q : Nat := if b = 0 then 2 ^ c.xlen - 1 else a / b
  retireOut (c.setReg rd q)

/-- Modelled from the spec (§4.5 Divide): `execRem`; remainder by zero
yields the dividend; the signed-overflow case yields 0. -/
def Core.execRem (c : Core) (rd rs1 rs2 : Nat) : ExecOut :=
  let a := toSigned c.xlen (c.intRead rs1)
  let b := toSigned c.xlen (c.intRead rs2)
  let r : Int :=
    if b = 0 then a
    else if a = minSigned c.xlen ∧ b = -1 then 0
    else Int.tmod a b
  retireOut (c.setReg rd (toURV c.xlen r))

/-- Modelled from the spec (§4.5 Divide): `execRemu`; remainder by
zero yields the dividend. -/
def Core.execRemu (c : Core) (rd rs1 rs2 : Nat) : ExecOut :=
  let a := c.intRead rs1
  let b := c.intRead rs2
  let r : Nat := if b = 0 then a else a % b
  retireOut (c.setReg rd r)

/-- Modelled from the spec (§4.5 Multiply): MUL keeps the low XLEN
bits; MULH/MULHU/MULHSU keep the high XLEN bits of the
signed×signed / unsigned×unsigned / signed×unsigned products. -/
def Core.execMulDiv (c : Core) (op : MulOp) (rd rs1 rs2 : Nat) : ExecOut :=
  match op with
  | .div => c.execDiv rd rs1 rs2
  | .divu => c.execDivu rd rs1 rs2
  | .rem => c.execRem rd rs1 rs2
  | .remu => c.execRemu rd rs1 rs2
  | .mul =>
    retireOut (c.setReg rd (c.intRead rs1 * c.intRead rs2))
  | .mulh =>
    let p := toSigned c.xlen (c.intRead rs1) * toSigned c.xlen (c.intRead rs2)
    retireOut (c.setReg rd (toURV c.xlen (Int.fdiv p (2 ^ c.xlen))))
  | .mulhu =>
    retireOut (c.setReg rd (c.intRead rs1 * c.intRead rs2 / 2 ^ c.xlen))
  | .mulhsu =>
    let p := toSigned c.xlen (c.intRead rs1) * (c.intRead rs2 : Int)
    retireOut (c.setReg rd (toURV c.xlen (Int.fdiv p (2 ^ c.xlen))))

/-- Byte width of a load operation. -/
def LoadOp.width : LoadOp → Nat
  | .lb => 1 | .lbu => 1 | .lh => 2 | .lhu => 2
  | .lw => 4 | .lwu => 4 | .ld => 8

/-- Whether a load sign-extends the loaded value (LB, LH, LW on RV64). -/
def LoadOp.signed : LoadOp → Bool
  | .lb => true | .lh => true | .lw => true
  | .lbu => false | .lhu => false | .lwu => false | .ld => false

/-- Whether a load is RV64-only. -/
def LoadOp.rv64Only : LoadOp → Bool
  | .lwu => true | .ld => true
  | _ => false

/-- Modelled from the spec (§4.5 Loads): effective address
`rs1 + offset`; misaligned access raises `LOAD_ADDR_MISALIGNED` with
the address as info; out-of-bounds raises `LOAD_ACCESS_FAULT`; byte
and half loads sign- or zero-extend into XLEN.  RV64-only loads are
illegal on RV32. -/
def Core.execLoad (c : Core) (op : LoadOp) (rd rs1 : Nat) (imm : Int) (inst : Nat) : ExecOut :=
  if op.rv64Only ∧ c.xlen ≠ 64 then trapOut c ILLEGAL_INST inst
  else
    let ea := toURV c.xlen ((c.intRead rs1 : Int) + imm)
    if ea % op.width ≠ 0 then trapOut c LOAD_ADDR_MISALIGNED ea
    else
      match memReadBytes c.mem ea op.width with
      | none => trapOut c LOAD_ACCESS_FAULT ea
      | some v =>
        let v' := if op.signed then sext (8 * op.width) c.xlen v else v
        retireOut (c.setReg rd v')

/-- Byte width of a store operation. -/
def StoreOp.width : StoreOp → Nat
  | .sb => 1 | .sh => 2 | .sw => 4 | .sd => 8

/-- Modelled from the spec (§4.5 Stores): effective address
`rs1 + offset`; misaligned access raises `STORE_ADDR_MISALIGNED`;
out-of-bounds raises `STORE_ACCESS_FAULT`; a retired store reports its
effective address (for the tohost stop check, spec §4.7 step 8).
SD is illegal on RV32. -/
def Core.execStore (c : Core) (op : StoreOp) (rs1 rs2 : Nat) (imm : Int) (inst : Nat) : ExecOut :=
  if op = .sd ∧ c.xlen ≠ 64 then trapOut c ILLEGAL_INST inst
  else
    let ea := toURV c.xlen ((c.intRead rs1 : Int) + imm)
    if ea % op.width ≠ 0 then trapOut c STORE_ADDR_MISALIGNED ea
    else
      match memWriteBytes c.mem ea op.width (c.intRead rs2) with
      | none => trapOut c STORE_ACCESS_FAULT ea
      | some mem => ⟨{ c with mem := mem }, none, some ea⟩

/-- Modelled from the spec (§4.3): `execCsrrw` (and `execCsrrwi` when
`immForm`).  The read is suppressed only when `rd = x0`; the write is
always attempted, so a read-only CSR traps; the previous value is
written to rd after the CSR write. -/
def Core.execCsrrw (c : Core) (rd csrn src : Nat) (immForm : Bool) (inst : Nat) : ExecOut :=
  let srcVal := if immForm then src else c.intRead src
  match (if rd = 0 then some 0 else csrRead c.csRegs csrn c.privMode) with
  | none => trapOut c ILLEGAL_INST inst
  | some prev =>
    match csrWrite c.xlen c.csRegs csrn srcVal c.privMode with
    | none => trapOut c ILLEGAL_INST inst
    | some csrs => retireOut ({ c with csRegs := csrs }.setReg rd prev)

/-- Modelled from the spec (§4.3): `execCsrrs`/`execCsrrc` (and the
immediate forms when `immForm`).  The CSR is always read; the write is
suppressed exactly when the source designator is zero (`rs1 = x0`, or
`uimm = 0`), in which case a read-only CSR does not trap; otherwise
the CSR receives `prev | src` (CSRRS) or `prev & ~src` (CSRRC). -/
def Core.execCsrrsc (c : Core) (set : Bool) (rd csrn src : Nat) (immForm : Bool) (inst : Nat) : ExecOut :=
  let srcVal := if immForm then src else c.intRead src
  match csrRead c.csRegs csrn c.privMode with
  | none => trapOut c ILLEGAL_INST inst
  | some prev =>
    if src = 0 then retireOut (c.setReg rd prev)
    else
      let newVal := if set then prev ||| srcVal else prev &&& natNot c.xlen srcVal
      match csrWrite c.xlen c.csRegs csrn newVal c.privMode with
      | none => trapOut c ILLEGAL_INST inst
      | some csrs => retireOut ({ c with csRegs := csrs }.setReg rd prev)

/-- Modelled from the spec (§4.5 ECALL): raises the environment-call
cause matching the current privilege. -/
def Core.execEcall (c : Core) : ExecOut :=
  let cause :=
    if c.privMode = MACHINE_MODE then M_ENV_CALL
    else if c.privMode = SUPERVISOR_MODE then S_ENV_CALL
    else U_ENV_CALL
  trapOut c cause 0

/-- Modelled from the spec (§4.5 xRET): MRET restores the pc from
`mepc`, the privilege from `mstatus.MPP`, and the interrupt-enable
bits (`MPIE→MIE`, `MPIE=1`, `MPP=U`); it traps when issued from
insufficient privilege. -/
def Core.execMret (c : Core) (inst : Nat) : ExecOut :=
  if c.privMode < MACHINE_MODE then trapOut c ILLEGAL_INST inst
  else
    let m := csrValue c.csRegs MSTATUS_NUM
    retireOut
      { c with
        csRegs := csrPoke c.csRegs MSTATUS_NUM (mretMstatus m),
        privMode := mstatusMPP m,
        pc := csrValue c.csRegs MEPC_NUM }

/-- Dispatch a decoded operation to its handler (the body of
`execute32`/`execute16` in `Core.hpp`).  `inst` is the raw instruction
word, used as the info (`mtval`) of an illegal-instruction trap (spec
§4.5: `mtval = inst`).  FENCE, FENCE.I and WFI retire as no-ops;
SRET/URET are unimplemented (`Core::unimplemented` calls
`illegalInst`); EBREAK raises BREAKPOINT. -/
def Core.execInstr (c : Core) (inst : Nat) : Instr → ExecOut
  | .branch op rs1 rs2 offset => c.execBranch op rs1 rs2 offset
  | .jal rd offset => c.execJal rd offset
  | .jalr rd rs1 offset => c.execJalr rd rs1 offset
  | .lui rd imm => c.execLui rd imm
  | .auipc rd imm => c.execAuipc rd imm
  | .alui op rd rs1 imm => c.execAluImm op rd rs1 imm
  | .shifti op rd rs1 amount => c.execShiftImm op rd rs1 amount
  | .alu op rd rs1 rs2 => c.execAluReg op rd rs1 rs2
  | .muldiv op rd rs1 rs2 => c.execMulDiv op rd rs1 rs2
  | .load op rd rs1 imm => c.execLoad op rd rs1 imm inst
  | .store op rs1 rs2 imm => c.execStore op rs1 rs2 imm inst
  | .fence _ _ => retireOut c
  | .sys .ecall => c.execEcall
  | .sys .ebreak => trapOut c BREAKPOINT 0
  | .sys .mret => c.execMret inst
  | .sys .sret => trapOut c ILLEGAL_INST inst
  | .sys .uret => trapOut c ILLEGAL_INST inst
  | .sys .wfi => retireOut c
  | .sys .fencei => retireOut c
  | .csr .rw immForm rd csrn src => c.execCsrrw rd csrn src immForm inst
  | .csr .rs immForm rd csrn src => c.execCsrrsc true rd csrn src immForm inst
  | .csr .rc immForm rd csrn src => c.execCsrrsc false rd csrn src immForm inst
  | .illegal => trapOut c ILLEGAL_INST inst

/-! ## Decoder (spec §4.4)

Modelled from the spec: a pure function from a 32-bit word to a
decoded operation with all immediates sign-extended at decode time;
any unrecognised or reserved encoding decodes to `Instr.illegal`. -/

/-- I-type immediate (bits 20..31, sign-extended from 12 bits). -/
def iImm (w : Nat) : Int := toSigned 12 (bits w 20 12)

/-- S-type immediate. -/
def sImm (w : Nat) : Int := toSigned 12 (bits w 25 7 * 32 + bits w 7 5)

/-- B-type immediate (a multiple of 2, sign-extended from 13 bits). -/
def bImm (w : Nat) : Int :=
  toSigned 13 (bit w 31 * 4096 + bit w 7 * 2048 + bits w 25 6 * 32 + bits w 8 4 * 2)

/-- U-type upper-immediate field (bits 12..31, sign-extended from 20
bits; the handler shifts it left by 12). -/
def uImm (w : Nat) : Int := toSigned 20 (bits w 12 20)

/-- J-type immediate (a multiple of 2, sign-extended from 21 bits). -/
def jImm (w : Nat) : Int :=
  toSigned 21
    (bit w 31 * 2 ^ 20 + bits w 12 8 * 2 ^ 12 + bit w 20 * 2 ^ 11 + bits w 21 10 * 2)

/-- Decode the funct3-selected branch comparison. -/
def decodeBranch (f3 rs1 rs2 : Nat) (off : Int) : Instr :=
  match f3 with
  | 0 => .branch .beq rs1 rs2 off
  | 1 => .branch .bne rs1 rs2 off
  | 4 => .branch .blt rs1 rs2 off
  | 5 => .branch .bge rs1 rs2 off
  | 6 => .branch .bltu rs1 rs2 off
  | 7 => .branch .bgeu rs1 rs2 off
  | _ => .illegal

/-- Decode the funct3-selected load. -/
def decodeLoad (f3 rd rs1 : Nat) (off : Int) : Instr :=
  match f3 with
  | 0 => .load .lb rd rs1 off
  | 1 => .load .lh rd rs1 off
  | 2 => .load .lw rd rs1 off
  | 3 => .load .ld rd rs1 off
  | 4 => .load .lbu rd rs1 off
  | 5 => .load .lhu rd rs1 off
  | 6 => .load .lwu rd rs1 off
  | _ => .illegal

/-- Decode the funct3-selected store. -/
def decodeStore (f3 rs1 rs2 : Nat) (off : Int) : Instr :=
  match f3 with
  | 0 => .store .sb rs1 rs2 off
  | 1 => .store .sh rs1 rs2 off
  | 2 => .store .sw rs1 rs2 off
  | 3 => .store .sd rs1 rs2 off
  | _ => .illegal

/-- Decode an OP-IMM instruction (opcode 0x13).  On RV32 the shift
encodings require bits 25..31 to match exactly (`rv64` widens the
shift-amount field by one bit). -/
def decodeOpImm (rv64 : Bool) (w f3 rd rs1 : Nat) : Instr :=
  let shamt := if rv64 then bits w 20 6 else bits w 20 5
  let top := if rv64 then bits w 26 6 else bits w 25 7
  let sraTop := if rv64 then 0x10 else 0x20
  match f3 with
  | 0 => .alui .addi rd rs1 (iImm w)
  | 1 => if top = 0 then .shifti .slli rd rs1 shamt else .illegal
  | 2 => .alui .slti rd rs1 (iImm w)
  | 3 => .alui .sltiu rd rs1 (iImm w)
  | 4 => .alui .xori rd rs1 (iImm w)
  | 5 =>
    if top = 0 then .shifti .srli rd rs1 shamt
    else if top = sraTop then .shifti .srai rd rs1 shamt
    else .illegal
  | 6 => .alui .ori rd rs1 (iImm w)
  | 7 => .alui .andi rd rs1 (iImm w)
  | _ => .illegal

/-- Decode an OP instruction (opcode 0x33) from funct7 and funct3. -/
def decodeOp (f7 f3 rd rs1 rs2 : Nat) : Instr :=
  match f7, f3 with
  | 0, 0 => .alu .add rd rs1 rs2
  | 0, 1 => .alu .sll rd rs1 rs2
  | 0, 2 => .alu .slt rd rs1 rs2
  | 0, 3 => .alu .sltu rd rs1 rs2
  | 0, 4 => .alu .xor rd rs1 rs2
  | 0, 5 => .alu .srl rd rs1 rs2
  | 0, 6 => .alu .or rd rs1 rs2
  | 0, 7 => .alu .and rd rs1 rs2
  | 0x20, 0 => .alu .sub rd rs1 rs2
  | 0x20, 5 => .alu .sra rd rs1 rs2
  | 1, 0 => .muldiv .mul rd rs1 rs2
  | 1, 1 => .muldiv .mulh rd rs1 rs2
  | 1, 2 => .muldiv .mulhsu rd rs1 rs2
  | 1, 3 => .muldiv .mulhu rd rs1 rs2
  | 1, 4 => .muldiv .div rd rs1 rs2
  | 1, 5 => .muldiv .divu rd rs1 rs2
  | 1, 6 => .muldiv .rem rd rs1 rs2
  | 1, 7 => .muldiv .remu rd rs1 rs2
  | _, _ => .illegal

/-- Decode a SYSTEM instruction (opcode 0x73). -/
def decodeSystem (w f3 rd rs1 : Nat) : Instr :=
  let csrn := bits w 20 12
  match f3 with
  | 0 =>
    if w = 0x73 then .sys .ecall
    else if w = 0x100073 then .sys .ebreak
    else if w = 0x30200073 then .sys .mret
    else if w = 0x10200073 then .sys .sret
    else if w = 0x200073 then .sys .uret
    else if w = 0x10500073 then .sys .wfi
    else .illegal
  | 1 => .csr .rw false rd csrn rs1
  | 2 => .csr .rs false rd csrn rs1
  | 3 => .csr .rc false rd csrn rs1
  | 5 => .csr .rw true rd csrn rs1
  | 6 => .csr .rs true rd csrn rs1
  | 7 => .csr .rc true rd csrn rs1
  | _ => .illegal

/-- Modelled from the spec (§4.4): decode a 32-bit instruction word
into its operation variant (RV32I/RV64I + M + Zicsr + system).  The
`rv64` flag selects the RV64 shift-amount rule. -/
def decode32 (rv64 : Bool) (w : Nat) : Instr :=
  let opcode := bits w 0 7
  let rd := bits w 7 5
  let f3 := bits w 12 3
  let rs1 := bits w 15 5
  let rs2 := bits w 20 5
  let f7 := bits w 25 7
  match opcode with
  | 0x37 => .lui rd (uImm w)
  | 0x17 => .auipc rd (uImm w)
  | 0x6F => .jal rd (jImm w)
  | 0x67 => if f3 = 0 then .jalr rd rs1 (iImm w) else .illegal
  | 0x63 => decodeBranch f3 rs1 rs2 (bImm w)
  | 0x03 => decodeLoad f3 rd rs1 (iImm w)
  | 0x23 => decodeStore f3 rs1 rs2 (sImm w)
  | 0x13 => decodeOpImm rv64 w f3 rd rs1
  | 0x33 => decodeOp f7 f3 rd rs1 rs2
  | 0x0F =>
    if f3 = 0 then .fence (bits w 24 4) (bits w 20 4)
    else if f3 = 1 then .sys .fencei
    else .illegal
  | 0x73 => decodeSystem w f3 rd rs1
  | _ => .illegal

/-! ## Compressed-instruction expansion (spec §4.4, `Core::expandInst`)

Modelled from the spec: the C extension's fixed syntactic mapping from
a legal 16-bit encoding to its 32-bit equivalent (RV32 instantiation,
`Core<uint32_t>::expandInst`).  Reserved and illegal patterns —
including every floating-point compressed form, absent from this I+M+C
simulator — yield failure. -/

/-- Assemble an R-type 32-bit encoding. -/
def encodeR (f7 rs2 rs1 f3 rd op : Nat) : Nat :=
  f7 * 2 ^ 25 + rs2 * 2 ^ 20 + rs1 * 2 ^ 15 + f3 * 2 ^ 12 + rd * 2 ^ 7 + op

/-- Assemble an I-type 32-bit encoding (`imm12` already reduced to 12
bits two's complement). -/
def encodeI (imm12 rs1 f3 rd op : Nat) : Nat :=
  imm12 * 2 ^ 20 + rs1 * 2 ^ 15 + f3 * 2 ^ 12 + rd * 2 ^ 7 + op

/-- Assemble an S-type 32-bit encoding. -/
def encodeS (imm12 rs2 rs1 f3 op : Nat) : Nat :=
  imm12 / 32 * 2 ^ 25 + rs2 * 2 ^ 20 + rs1 * 2 ^ 15 + f3 * 2 ^ 12 + imm12 % 32 * 2 ^ 7 + op

/-- Assemble a B-type 32-bit encoding (`imm13` a 13-bit two's
complement multiple of 2). -/
def encodeB (imm13 rs2 rs1 f3 op : Nat) : Nat :=
  bit imm13 12 * 2 ^ 31 + bits imm13 5 6 * 2 ^ 25 + rs2 * 2 ^ 20 + rs1 * 2 ^ 15
    + f3 * 2 ^ 12 + bits imm13 1 4 * 2 ^ 8 + bit imm13 11 * 2 ^ 7 + op

/-- Assemble a U-type 32-bit encoding. -/
def encodeU (imm20 rd op : Nat) : Nat := imm20 * 2 ^ 12 + rd * 2 ^ 7 + op

/-- Assemble a J-type 32-bit encoding (`imm21` a 21-bit two's
complement multiple of 2). -/
def encodeJ (imm21 rd op : Nat) : Nat :=
  bit imm21 20 * 2 ^ 31 + bits imm21 1 10 * 2 ^ 21 + bit imm21 11 * 2 ^ 20
    + bits imm21 12 8 * 2 ^ 12 + rd * 2 ^ 7 + op

/-- C.J / C.JAL jump offset (sign-extended 12-bit multiple of 2). -/
def cjOffset (c : Nat) : Int :=
  toSigned 12
    (bit c 12 * 2 ^ 11 + bit c 11 * 2 ^ 4 + bit c 10 * 2 ^ 9 + bit c 9 * 2 ^ 8
      + bit c 8 * 2 ^ 10 + bit c 7 * 2 ^ 6 + bit c 6 * 2 ^ 7 + bit c 5 * 2 ^ 3
      + bit c 4 * 2 ^ 2 + bit c 3 * 2 + bit c 2 * 2 ^ 5)

/-- C.BEQZ / C.BNEZ branch offset (sign-extended 9-bit multiple of 2). -/
def cbOffset (c : Nat) : Int :=
  toSigned 9
    (bit c 12 * 2 ^ 8 + bit c 11 * 2 ^ 4 + bit c 10 * 2 ^ 3 + bit c 6 * 2 ^ 7
      + bit c 5 * 2 ^ 6 + bit c 4 * 2 ^ 2 + bit c 3 * 2 + bit c 2 * 2 ^ 5)

/-- C.ADDI4SPN zero-extended immediate (scaled by 4). -/
def ciw4spn (c : Nat) : Nat :=
  bits c 11 2 * 16 + bits c 7 4 * 64 + bit c 6 * 4 + bit c 5 * 8

/-- C.LW / C.SW zero-extended offset (scaled by 4). -/
def clwOffset (c : Nat) : Nat := bits c 10 3 * 8 + bit c 6 * 4 + bit c 5 * 64

/-- C.ADDI / C.LI / C.ANDI / C.LUI 6-bit immediate field, signed. -/
def ciImm (c : Nat) : Int := toSigned 6 (bit c 12 * 32 + bits c 2 5)

/-- C.ADDI16SP immediate (sign-extended 10-bit multiple of 16). -/
def ci16spImm (c : Nat) : Int :=
  toSigned 10
    (bit c 12 * 2 ^ 9 + bit c 6 * 2 ^ 4 + bit c 5 * 2 ^ 6 + bits c 3 2 * 2 ^ 7
      + bit c 2 * 2 ^ 5)

/-- C.LWSP zero-extended offset (scaled by 4). -/
def clwspOffset (c : Nat) : Nat := bit c 12 * 32 + bits c 4 3 * 4 + bits c 2 2 * 64

/-- C.SWSP zero-extended offset (scaled by 4). -/
def cswspOffset (c : Nat) : Nat := bits c 9 4 * 4 + bits c 7 2 * 64

/-- Modelled from the spec (§4.4): `Core<uint32_t>::expandInst`: expand a
16-bit compressed code to the equivalent 32-bit code, failing
(`false` in the C++ interface) on every reserved or illegal pattern. -/
def expandInst (c : Nat) : Option Nat :=
  let rdp := 8 + bits c 7 3
  let rs2p := 8 + bits c 2 3
  let rdf := bits c 7 5
  let rs2f := bits c 2 5
  match bits c 0 2, bits c 13 3 with
  | 0, 0 =>
    if ciw4spn c = 0 then none
    else some (encodeI (ciw4spn c) 2 0 rs2p 0x13)
  | 0, 2 => some (encodeI (clwOffset c) rdp 2 rs2p 0x03)
  | 0, 6 => some (encodeS (clwOffset c) rs2p rdp 2 0x23)
  | 1, 0 => some (encodeI (toURV 12 (ciImm c)) rdf 0 rdf 0x13)
  | 1, 1 => some (encodeJ (toURV 21 (cjOffset c)) 1 0x6F)
  | 1, 2 => some (encodeI (toURV 12 (ciImm c)) 0 0 rdf 0x13)
  | 1, 3 =>
    if rdf = 2 then
      if ci16spImm c = 0 then none
      else some (encodeI (toURV 12 (ci16spImm c)) 2 0 2 0x13)
    else
      if ciImm c = 0 then none
      else some (encodeU (toURV 20 (ciImm c)) rdf 0x37)
  | 1, 4 =>
    match bits c 10 2 with
    | 0 => if bit c 12 = 1 then none else some (encodeI (bits c 2 5) rdp 5 rdp 0x13)
    | 1 => if bit c 12 = 1 then none else some (encodeI (1024 + bits c 2 5) rdp 5 rdp 0x13)
    | 2 => some (encodeI (toURV 12 (ciImm c)) rdp 7 rdp 0x13)
    | _ =>
      if bit c 12 = 1 then none
      else
        match bits c 5 2 with
        | 0 => some (encodeR 0x20 rs2p rdp 0 rdp 0x33)
        | 1 => some (encodeR 0 rs2p rdp 4 rdp 0x33)
        | 2 => some (encodeR 0 rs2p rdp 6 rdp 0x33)
        | _ => some (encodeR 0 rs2p rdp 7 rdp 0x33)
  | 1, 5 => some (encodeJ (toURV 21 (cjOffset c)) 0 0x6F)
  | 1, 6 => some (encodeB (toURV 13 (cbOffset c)) 0 rdp 0 0x63)
  | 1, 7 => some (encodeB (toURV 13 (cbOffset c)) 0 rdp 1 0x63)
  | 2, 0 =>
    if bit c 12 = 1 then none else some (encodeI (bits c 2 5) rdf 1 rdf 0x13)
  | 2, 2 =>
    if rdf = 0 then none else some (encodeI (clwspOffset c) 2 2 rdf 0x03)
  | 2, 4 =>
    if bit c 12 = 0 then
      if rs2f = 0 then
        if rdf = 0 then none else some (encodeI 0 rdf 0 0 0x67)
      else some (encodeR 0 rs2f 0 0 rdf 0x33)
    else
      if rs2f = 0 then
        if rdf = 0 then some 0x100073 else some (encodeI 0 rdf 0 1 0x67)
      else some (encodeR 0 rs2f rdf 0 rdf 0x33)
  | 2, 6 => some (encodeS (cswspOffset c) rs2f 2 2 0x23)
  | _, _ => none

/-- A direct decoder for 16-bit compressed encodings, written from the
spec's statement of what each compressed form executes as (e.g. §8
scenario 5: `c.addi x1, 1` executes identically to `addi x1, x1, 1`).
It never consults `expandInst` or `decode32`; it is the specification
side of the compressed-expansion idempotence property. -/
def decodeC16 (c : Nat) : Option Instr :=
  let rdp := 8 + bits c 7 3
  let rs2p := 8 + bits c 2 3
  let rdf := bits c 7 5
  let rs2f := bits c 2 5
  match bits c 0 2, bits c 13 3 with
  | 0, 0 =>
    if ciw4spn c = 0 then none
    else some (.alui .addi rs2p 2 (ciw4spn c))
  | 0, 2 => some (.load .lw rs2p rdp (clwOffset c))
  | 0, 6 => some (.store .sw rdp rs2p (clwOffset c))
  | 1, 0 => some (.alui .addi rdf rdf (ciImm c))
  | 1, 1 => some (.jal 1 (cjOffset c))
  | 1, 2 => some (.alui .addi rdf 0 (ciImm c))
  | 1, 3 =>
    if rdf = 2 then
      if ci16spImm c = 0 then none
      else some (.alui .addi 2 2 (ci16spImm c))
    else
      if ciImm c = 0 then none
      else some (.lui rdf (ciImm c))
  | 1, 4 =>
    match bits c 10 2 with
    | 0 => if bit c 12 = 1 then none else some (.shifti .srli rdp rdp (bits c 2 5))
    | 1 => if bit c 12 = 1 then none else some (.shifti .srai rdp rdp (bits c 2 5))
    | 2 => some (.alui .andi rdp rdp (ciImm c))
    | _ =>
      if bit c 12 = 1 then none
      else
        match bits c 5 2 with
        | 0 => some (.alu .sub rdp rdp rs2p)
        | 1 => some (.alu .xor rdp rdp rs2p)
        | 2 => some (.alu .or rdp rdp rs2p)
        | _ => some (.alu .and rdp rdp rs2p)
  | 1, 5 => some (.jal 0 (cjOffset c))
  | 1, 6 => some (.branch .beq rdp 0 (cbOffset c))
  | 1, 7 => some (.branch .bne rdp 0 (cbOffset c))
  | 2, 0 =>
    if bit c 12 = 1 then none else some (.shifti .slli rdf rdf (bits c 2 5))
  | 2, 2 =>
    if rdf = 0 then none else some (.load .lw rdf 2 (clwspOffset c))
  | 2, 4 =>
    if bit c 12 = 0 then
      if rs2f = 0 then
        if rdf = 0 then none else some (.jalr 0 rdf 0)
      else some (.alu .add rdf 0 rs2f)
    else
      if rs2f = 0 then
        if rdf = 0 then some (.sys .ebreak) else some (.jalr 1 rdf 0)
      else some (.alu .add rdf rdf rs2f)
  | 2, 6 => some (.store .sw 2 rs2f (cswspOffset c))
  | _, _ => none

/-! ## Fetch, interrupts and the run loop (spec §4.7) -/

/-- Modelled from the spec (§4.7 step 4): fetch at `pc`: an odd pc
raises `INST_ADDR_MISALIGNED`; out-of-range raises
`INST_ACCESS_FAULT`; low two bits `0b11` select a 32-bit fetch.
Returns the raw code and its size, or a `(cause, info)` pair. -/
def Core.fetch (c : Core) : Except (Nat × Nat) (Nat × Nat) :=
  if c.pc % 2 ≠ 0 then .error (INST_ADDR_MISALIGNED, c.pc)
  else
    match memReadBytes c.mem c.pc 2 with
    | none => .error (INST_ACCESS_FAULT, c.pc)
    | some lo =>
      if lo % 4 = 3 then
        match memReadBytes c.mem (c.pc + 2) 2 with
        | none => .error (INST_ACCESS_FAULT, c.pc)
        | some hi => .ok (lo + 65536 * hi, 4)
      else .ok (lo, 2)

/-- Spec §4.7 step 5: `currPc ← pc; pc ← pc + instSize` — the state in
which `execute32`/`execute16` runs (`Core.hpp` lines 223–235: assumes
`currPc_` is the instruction address and `pc_` is `currPc_` plus the
instruction size). -/
def Core.preExec (c : Core) (size : Nat) : Core :=
  { c with currPc := c.pc, pc := maskToXlen c.xlen (c.pc + size) }

/-- `Core::execute32`: decode the 32-bit word and dispatch. -/
def Core.execute32 (c : Core) (w : Nat) : ExecOut :=
  c.execInstr w (decode32 (decide (c.xlen = 64)) w)

/-- `Core::execute16`: expand the compressed code and dispatch; an
expansion failure is an illegal instruction with the code as info
(spec §4.4: the expander's failure becomes `ILLEGAL_INST`). -/
def Core.execute16 (c : Core) (h : Nat) : ExecOut :=
  match expandInst h with
  | none => trapOut c ILLEGAL_INST h
  | some w => c.execInstr h (decode32 false w)

/-- Modelled from the spec (§4.6): an interrupt fires when
`mstatus.MIE` is set and some cause bit is set in both `mie` and
`mip`; priority M-external > M-software > M-timer > S-external >
S-software > S-timer > U-external > U-software > U-timer. -/
def Core.pendingInterrupt (c : Core) : Option Nat :=
  if mstatusMIE (csrValue c.csRegs MSTATUS_NUM) = 0 then none
  else
    [11, 3, 7, 9, 1, 5, 8, 0, 4].find?
      (fun b => bit (csrValue c.csRegs MIE_NUM) b = 1 ∧ bit (csrValue c.csRegs MIP_NUM) b = 1)

/-- Why the run loop exited (spec §4.7 steps 3 and 8). -/
inductive StopReason where
  | stopAddrHit
  | toHostWrite
  deriving Repr, DecidableEq

/-- Spec §4.7 steps 6–8 applied to an execution outcome: route a
raised exception into the trap unit (`mepc ← currPc`), account
retirement and cycles, and stop after a retired store to the tohost
address. -/
def Core.stepExec (eo : ExecOut) : Core × Option StopReason :=
  match eo.trap with
  | some (cause, info) =>
    let c2 := eo.core.initiateException cause eo.core.currPc info
    ({ c2 with cycleCount := c2.cycleCount + 1 }, none)
  | none =>
    let c2 := { eo.core with
                retiredInsts := eo.core.retiredInsts + 1,
                cycleCount := eo.core.cycleCount + 1 }
    if eo.core.toHostValid ∧ eo.storeAddr = some eo.core.toHost then
      (c2, some .toHostWrite)
    else (c2, none)

/-- Modelled from the spec (§4.7): one iteration of the run loop:
deliver a pending interrupt, else check the stop address on `pc`, else
fetch, advance `currPc`/`pc`, execute and finish via `stepExec`. -/
def Core.step (c : Core) : Core × Option StopReason :=
  match c.pendingInterrupt with
  | some cause => (c.initiateInterrupt cause c.pc, none)
  | none =>
    if c.stopAddrValid ∧ c.pc = c.stopAddr then (c, some .stopAddrHit)
    else
      match c.fetch with
      | .error (cause, info) => (c.initiateException cause c.pc info, none)
      | .ok (w, size) =>
        Core.stepExec
          (if size = 4 then (c.preExec size).execute32 w
           else (c.preExec size).execute16 w)

/-- `Core::run` (fuel-indexed): iterate `step` until a stop condition
fires or the fuel runs out. -/
def Core.runLoop (c : Core) : Nat → Core
  | 0 => c
  | n + 1 =>
    match c.step with
    | (c', some _) => c'
    | (c', none) => c'.runLoop n

/-- Modelled from the spec (`Core.hpp` lines 127–130): run until the
program counter reaches the given address and DO execute the
instruction at that address: when the pc is at the target (and the
coming step will really execute it, i.e. no interrupt preempts it),
perform one final step and stop. -/
def Core.runUntilAddress (a : Nat) (c : Core) : Nat → Core
  | 0 => c
  | n + 1 =>
    let atTarget := c.pc = a ∧ c.pendingInterrupt = none
    match c.step with
    | (c', some _) => c'
    | (c', none) => if atTarget then c' else c'.runUntilAddress a n

/-! ## Debug peek/poke interface (`Core.hpp` lines 74–98, 174–194) -/

/-- `Core::peekPc`. -/
def Core.peekPc (c : Core) : Nat := c.pc

/-- `Core::pokePc`. -/
def Core.pokePc (c : Core) (address : Nat) : Core :=
  { c with pc := maskToXlen c.xlen address }

/-- `Core::peekIntReg`: returns `(true, register value)` in bounds,
`(false, val)` (output argument unmodified) out of bounds. -/
def Core.peekIntReg (c : Core) (reg val : Nat) : Bool × Nat :=
  if reg < c.intRegs.length then (true, intRegsRead c.intRegs reg) else (false, val)

/-- `Core::pokeIntReg`: writes through the register file (so x0 stays
zero) and fails leaving the core unchanged when out of bounds. -/
def Core.pokeIntReg (c : Core) (reg v : Nat) : Bool × Core :=
  if reg < c.intRegs.length then
    (true, { c with intRegs := intRegsWrite c.intRegs reg (maskToXlen c.xlen v) })
  else (false, c)

/-- `Core::peekCsr`: fails leaving `val` unmodified when the CSR
number is not implemented. -/
def Core.peekCsr (c : Core) (n val : Nat) : Bool × Nat :=
  match findCsr c.csRegs n with
  | some r => (true, r.value)
  | none => (false, val)

/-- `Core::pokeCsr`: fails leaving the core unchanged when the CSR
number is not implemented. -/
def Core.pokeCsr (c : Core) (n v : Nat) : Bool × Core :=
  match findCsr c.csRegs n with
  | some _ => (true, { c with csRegs := csrPoke c.csRegs n (maskToXlen c.xlen v) })
  | none => (false, c)

/-- `Core::peekMemory` (byte form): fails leaving `val` unmodified
when the address is out of bounds. -/
def Core.peekMemory (c : Core) (address val : Nat) : Bool × Nat :=
  if address < c.mem.length then (true, c.mem.getD address 0) else (false, val)

/-- `Core::pokeMemory` (word form): fails leaving the core unchanged
when the word does not fit in memory. -/
def Core.pokeMemory (c : Core) (address v : Nat) : Bool × Core :=
  match memWriteBytes c.mem address 4 v with
  | some m => (true, { c with mem := m })
  | none => (false, c)

/-- A debug action interleaved with execution (spec §6 peek/poke
interface), for stating whole-run invariants. -/
inductive DebugAct where
  | stepA
  | pokeRegA (i v : Nat)
  | pokeCsrA (n v : Nat)
  | pokeMemA (a v : Nat)
  | pokePcA (v : Nat)
  deriving Repr, DecidableEq

/-- Run a sequence of execution steps and debug pokes. -/
def Core.runActs (c : Core) : List DebugAct → Core
  | [] => c
  | a :: rest =>
    let c' :=
      match a with
      | .stepA => (c.step).1
      | .pokeRegA i v => (c.pokeIntReg i v).2
      | .pokeCsrA n v => (c.pokeCsr n v).2
      | .pokeMemA ad v => (c.pokeMemory ad v).2
      | .pokePcA v => c.pokePc v
    c'.runActs rest

/-! ## Reset state (spec §3: privilege after reset = MACHINE; registers
zeroed; the §4.3 minimum CSR set registered at construction) -/

/-- One registered CSR with a given number, reset value, write mask,
minimum privilege and read-only attribute. -/
def mkCsr (number resetValue writeMask minPriv : Nat) (ro : Bool) : Csr :=
  ⟨number, resetValue, writeMask, resetValue, minPriv, ro⟩

/-- Modelled from the spec (§4.3): the machine-mode CSR set registered
at core construction.  Read-only CSRs are the machine-information
registers (top two bits of the number are `11`). -/
def mkCsrs (xlen : Nat) : List Csr :=
  let m := 2 ^ xlen - 1
  [ mkCsr MSTATUS_NUM 0 m MACHINE_MODE false,
    mkCsr MISA_NUM 0 0 MACHINE_MODE false,
    mkCsr MIE_NUM 0 m MACHINE_MODE false,
    mkCsr MTVEC_NUM 0 m MACHINE_MODE false,
    mkCsr MSCRATCH_NUM 0 m MACHINE_MODE false,
    mkCsr MEPC_NUM 0 m MACHINE_MODE false,
    mkCsr MCAUSE_NUM 0 m MACHINE_MODE false,
    mkCsr MTVAL_NUM 0 m MACHINE_MODE false,
    mkCsr MIP_NUM 0 m MACHINE_MODE false,
    mkCsr MVENDORID_NUM 0 0 MACHINE_MODE true,
    mkCsr 0xF12 0 0 MACHINE_MODE true,
    mkCsr 0xF13 0 0 MACHINE_MODE true,
    mkCsr MHARTID_NUM 0 0 MACHINE_MODE true ]

/-- `Core::Core(hartId, memorySize, intRegCount)` followed by
`initialize`: zeroed registers and memory, machine mode, pc 0. -/
def mkCore (xlen memorySize intRegCount : Nat) : Core :=
  { xlen := xlen
    mem := List.replicate memorySize 0
    intRegs := List.replicate intRegCount 0
    csRegs := mkCsrs xlen
    pc := 0
    currPc := 0
    stopAddr := 0
    stopAddrValid := false
    toHost := 0
    toHostValid := false
    retiredInsts := 0
    cycleCount := 0
    privMode := MACHINE_MODE }

/-! ## Arithmetic helper lemmas -/

theorem toURV_lt (xlen : Nat) (i : Int) : toURV xlen i < 2 ^ xlen := by
  unfold toURV
  have h2 : (0 : Int) < (2 ^ xlen : Nat) := by positivity
  have := Int.emod_nonneg i (ne_of_gt h2)
  have := Int.emod_lt_of_pos i h2
  omega

theorem pow_cast_int (n : Nat) : ((2 ^ n : Nat) : Int) = (2 : Int) ^ n := by
  push_cast
  ring

theorem pow_split (xlen : Nat) (h : 1 ≤ xlen) :
    (2 ^ xlen : Nat) = 2 ^ (xlen - 1) * 2 := by
  rw [← pow_succ]
  congr 1
  omega

theorem toURV_neg_one (xlen : Nat) : toURV xlen (-1) = 2 ^ xlen - 1 := by
  have hN : 1 ≤ (2 ^ xlen : Nat) := Nat.one_le_two_pow
  have hmod : (-1 : Int) % ((2 ^ xlen : Nat) : Int) = ((2 ^ xlen : Nat) : Int) - 1 := by
    have h1 := Int.add_mul_emod_self_left (-1) ((2 ^ xlen : Nat) : Int) 1
    rw [mul_one] at h1
    rw [← h1]
    apply Int.emod_eq_of_lt <;> omega
  unfold toURV
  rw [hmod]
  omega

theorem toURV_ofNat (xlen v : Nat) (h : v < 2 ^ xlen) : toURV xlen (v : Int) = v := by
  unfold toURV
  rw [Int.emod_eq_of_lt (by positivity) (by exact_mod_cast h)]
  simp

theorem toSigned_lt (xlen v : Nat) (h : v < 2 ^ xlen) :
    toSigned xlen v < ((2 ^ (xlen - 1) : Nat) : Int) := by
  rcases Nat.eq_zero_or_pos xlen with h0 | h0
  · subst h0
    unfold toSigned
    simp at h
    omega
  · have hs := pow_split xlen h0
    unfold toSigned
    split <;> omega

theorem toSigned_nonneg_bound (xlen v : Nat) :
    -(((2 ^ (xlen - 1) : Nat) : Int)) ≤ toSigned xlen v := by
  rcases Nat.eq_zero_or_pos xlen with h0 | h0
  · subst h0
    unfold toSigned
    split <;> omega
  · have hs := pow_split xlen h0
    unfold toSigned
    split <;> omega

theorem toURV_toSigned (xlen v : Nat) (h : v < 2 ^ xlen) :
    toURV xlen (toSigned xlen v) = v := by
  unfold toURV toSigned
  split
  · rw [Int.emod_eq_of_lt (by positivity) (by exact_mod_cast h)]
    simp
  · have h1 := Int.add_mul_emod_self_left (v : Int) ((2 ^ xlen : Nat) : Int) (-1)
    have h2 : (v : Int) + ((2 ^ xlen : Nat) : Int) * (-1)
        = (v : Int) - ((2 ^ xlen : Nat) : Int) := by ring
    rw [h2] at h1
    rw [h1]
    rw [Int.emod_eq_of_lt (by positivity) (by exact_mod_cast h)]
    simp

theorem toSigned_toURV (xlen : Nat) (i : Int) (hx : 1 ≤ xlen)
    (hlo : -(((2 ^ (xlen - 1) : Nat) : Int)) ≤ i)
    (hhi : i < ((2 ^ (xlen - 1) : Nat) : Int)) :
    toSigned xlen (toURV xlen i) = i := by
  have hs := pow_split xlen hx
  unfold toSigned toURV
  rcases le_or_lt 0 i with hpos | hneg
  · have hmod : i % ((2 ^ xlen : Nat) : Int) = i :=
      Int.emod_eq_of_lt hpos (by omega)
    rw [hmod]
    rw [if_pos (by omega : i.toNat < 2 ^ (xlen - 1))]
    omega
  · have hmod : i % ((2 ^ xlen : Nat) : Int) = i + ((2 ^ xlen : Nat) : Int) := by
      have h1 := Int.add_mul_emod_self_left i ((2 ^ xlen : Nat) : Int) 1
      rw [mul_one] at h1
      rw [← h1]
      apply Int.emod_eq_of_lt <;> omega
    rw [hmod]
    rw [if_neg (by omega : ¬ (i + ((2 ^ xlen : Nat) : Int)).toNat < 2 ^ (xlen - 1))]
    omega

/-! ## Register-file access lemmas -/

theorem maskToXlen_eq_of_lt {xlen v : Nat} (h : v < 2 ^ xlen) :
    maskToXlen xlen v = v := Nat.mod_eq_of_lt h

theorem intRegsRead_write_self (regs : List Nat) (i v : Nat)
    (h0 : i ≠ 0) (hl : i < regs.length) :
    intRegsRead (intRegsWrite regs i v) i = v := by
  unfold intRegsRead intRegsWrite
  rw [if_neg h0]
  rw [List.getD_eq_getElem?_getD, List.getElem?_set_eq_of_lt _ hl]
  rfl

theorem intRegsWrite_getD_zero (regs : List Nat) (i v : Nat) :
    (intRegsWrite regs i v).getD 0 0 = regs.getD 0 0 := by
  unfold intRegsWrite
  split
  · rfl
  · rw [List.getD_eq_getElem?_getD, List.getElem?_set_ne (by omega)]
    rw [List.getD_eq_getElem?_getD]

theorem setReg_read_self (c : Core) (i v : Nat) (h0 : i ≠ 0)
    (hl : i < c.intRegs.length) :
    (c.setReg i v).intRead i = maskToXlen c.xlen v := by
  unfold Core.setReg Core.intRead
  exact intRegsRead_write_self _ _ _ h0 hl

/-- The zero argument evaluates `toSigned` at zero. -/
theorem toSigned_zero (xlen : Nat) : toSigned xlen 0 = 0 := by
  unfold toSigned
  rw [if_pos (Nat.pos_of_ne_zero (by positivity))]
  rfl

theorem toURV_zero (xlen : Nat) : toURV xlen 0 = 0 := by
  unfold toURV
  simp

/-! ## C1: division and remainder special cases -/

/-- C1: for DIV/DIVU/REM/REMU: a zero divisor yields an all-ones
quotient (−1 in the signed view) from DIV/DIVU and the dividend as
remainder from REM/REMU; the signed-overflow case (dividend = INT_MIN,
divisor = −1) makes DIV write the dividend and REM write 0; in all
cases no trap is raised and the instruction retires normally. -/
theorem div_rem_special (c : Core) (rd rs1 rs2 : Nat)
    (hrd : rd ≠ 0) (hlen : rd < c.intRegs.length)
    (hv1 : c.intRead rs1 < 2 ^ c.xlen) :
    (c.intRead rs2 = 0 →
      (c.execDiv rd rs1 rs2).core.intRead rd = 2 ^ c.xlen - 1 ∧
      (c.execDivu rd rs1 rs2).core.intRead rd = 2 ^ c.xlen - 1 ∧
      (c.execRem rd rs1 rs2).core.intRead rd = c.intRead rs1 ∧
      (c.execRemu rd rs1 rs2).core.intRead rd = c.intRead rs1) ∧
    (toSigned c.xlen (c.intRead rs1) = minSigned c.xlen →
     toSigned c.xlen (c.intRead rs2) = -1 →
      (c.execDiv rd rs1 rs2).core.intRead rd = c.intRead rs1 ∧
      (c.execRem rd rs1 rs2).core.intRead rd = 0) ∧
    (c.execDiv rd rs1 rs2).trap = none ∧
    (c.execDivu rd rs1 rs2).trap = none ∧
    (c.execRem rd rs1 rs2).trap = none ∧
    (c.execRemu rd rs1 rs2).trap = none := by
  have hsr : ∀ v, (c.setReg rd v).intRead rd = maskToXlen c.xlen v := fun v =>
    setReg_read_self c rd v hrd hlen
  have hone : 2 ^ c.xlen - 1 < 2 ^ c.xlen := by
    have := Nat.one_le_two_pow (n := c.xlen)
    omega
  refine ⟨?_, ?_, rfl, rfl, rfl, rfl⟩
  · intro hz
    have hz' : toSigned c.xlen (c.intRead rs2) = 0 := by
      rw [hz]
      exact toSigned_zero _
    refine ⟨?_, ?_, ?_, ?_⟩
    · simp [Core.execDiv, retireOut, hz', hsr, toURV_neg_one, maskToXlen_eq_of_lt hone]
    · simp [Core.execDivu, retireOut, hz, hsr, maskToXlen_eq_of_lt hone]
    · simp [Core.execRem, retireOut, hz', hsr, toURV_toSigned _ _ hv1,
        maskToXlen_eq_of_lt hv1]
    · simp [Core.execRemu, retireOut, hz, hsr, maskToXlen_eq_of_lt hv1]
  · intro hmin hneg
    have hbz : toSigned c.xlen (c.intRead rs2) ≠ 0 := by
      rw [hneg]
      omega
    constructor
    · simp only [Core.execDiv, retireOut, if_neg hbz, if_pos (And.intro hmin hneg), hsr]
      rw [toURV_toSigned _ _ hv1, maskToXlen_eq_of_lt hv1]
    · simp only [Core.execRem, retireOut, if_neg hbz, if_pos (And.intro hmin hneg), hsr]
      rw [toURV_zero]
      simp [maskToXlen]

/-- Core with x1 = 42 and x2 = 0 (spec §8 scenario 3). -/
def divZeroCore : Core := { mkCore 32 4 4 with intRegs := [0, 42, 0, 0] }

/-- Core with x1 = INT_MIN and x2 = −1 (spec §8 scenario 2). -/
def divOvCore : Core :=
  { mkCore 32 4 4 with intRegs := [0, 2 ^ 31, 2 ^ 32 - 1, 0] }

/-- Witness for C1 at concrete cores: 42 div 0, 42 rem 0, INT_MIN
div −1, INT_MIN rem −1. -/
theorem div_rem_special_witness :
    (divZeroCore.execDiv 3 1 2).core.intRead 3 = 2 ^ 32 - 1 ∧
    (divZeroCore.execRem 3 1 2).core.intRead 3 = 42 ∧
    (divOvCore.execDiv 3 1 2).core.intRead 3 = 2 ^ 31 ∧
    (divOvCore.execRem 3 1 2).core.intRead 3 = 0 ∧
    (divZeroCore.execDiv 3 1 2).trap = none := by
  have h1 := div_rem_special divZeroCore 3 1 2 (by decide) (by decide) (by decide)
  have h2 := div_rem_special divOvCore 3 1 2 (by decide) (by decide) (by decide)
  have hz : divZeroCore.intRead 2 = 0 := by decide
  have ha : divZeroCore.intRead 1 = 42 := by decide
  have hm : toSigned divZeroCore.xlen 42 = 42 := by decide
  have hov1 : toSigned divOvCore.xlen (divOvCore.intRead 1) = minSigned divOvCore.xlen := by
    decide
  have hov2 : toSigned divOvCore.xlen (divOvCore.intRead 2) = -1 := by decide
  have hb : divOvCore.intRead 1 = 2 ^ 31 := by decide
  refine ⟨(h1.1 hz).1, ?_, ?_, ((h2.2.1 hov1 hov2)).2, h1.2.2.1⟩
  · rw [(h1.1 hz).2.2.1, ha]
  · rw [(h2.2.1 hov1 hov2).1, hb]

/-! ## CSR-file lemmas and C8 -/

theorem findCsr_map_pres (csrs : List Csr) (n : Nat) (f : Csr → Csr)
    (hf : ∀ q, (f q).number = q.number) :
    findCsr (csrs.map f) n = (findCsr csrs n).map f := by
  unfold findCsr
  rw [List.find?_map]
  have hp : ((fun r => decide (r.number = n)) ∘ f) = fun q => decide (q.number = n) := by
    funext q
    simp [Function.comp, hf]
  rw [hp]

theorem pokeFun_pres_number (n v : Nat) :
    ∀ q : Csr, ((fun q => if q.number = n then { q with value := v } else q) q).number
      = q.number := by
  intro q
  by_cases h : q.number = n <;> simp [h]

theorem csrValue_poke_self (csrs : List Csr) (n v : Nat)
    (h : findCsr csrs n ≠ none) : csrValue (csrPoke csrs n v) n = v := by
  unfold csrValue csrPoke
  rw [findCsr_map_pres _ _ _ (pokeFun_pres_number n v)]
  rcases hr : findCsr csrs n with - | r
  · exact absurd hr h
  · unfold findCsr at hr
    have hnum := List.find?_some hr
    simp at hnum
    simp [hnum]

theorem csrValue_poke_ne (csrs : List Csr) (m n v : Nat) (hmn : m ≠ n) :
    csrValue (csrPoke csrs m v) n = csrValue csrs n := by
  unfold csrValue csrPoke
  rw [findCsr_map_pres _ _ _ (pokeFun_pres_number m v)]
  rcases hr : findCsr csrs n with - | r
  · rfl
  · unfold findCsr at hr
    have hnum := List.find?_some hr
    simp at hnum
    simp [hnum, Ne.symm hmn]

/-- C8: a CSR-file write fails with illegal-instruction when the CSR
number is unimplemented, the privilege is insufficient, or the CSR is
read-only; otherwise the stored value becomes
`new = (old & ~writeMask) | (src & writeMask)`, so every bit outside
the write-mask is unchanged. -/
theorem csrWrite_rules (xlen : Nat) (csrs : List Csr) (n src priv : Nat) :
    (findCsr csrs n = none → csrWrite xlen csrs n src priv = none) ∧
    (∀ r, findCsr csrs n = some r →
      (priv < r.minPriv → csrWrite xlen csrs n src priv = none) ∧
      (r.isReadOnly = true → csrWrite xlen csrs n src priv = none) ∧
      (r.minPriv ≤ priv → r.isReadOnly = false →
        ∃ csrs', csrWrite xlen csrs n src priv = some csrs' ∧
          csrValue csrs' n
            = (r.value &&& natNot xlen r.writeMask) ||| (src &&& r.writeMask) ∧
          (r.value < 2 ^ xlen →
            ∀ k, r.writeMask.testBit k = false →
              (csrValue csrs' n).testBit k = r.value.testBit k))) := by
  constructor
  · intro h
    unfold csrWrite
    rw [h]
  · intro r hr
    have hnum : r.number = n := by
      unfold findCsr at hr
      have := List.find?_some hr
      simpa using this
    refine ⟨?_, ?_, ?_⟩
    · intro hpriv
      simp only [csrWrite, hr]
      rw [if_pos hpriv]
    · intro hro
      simp only [csrWrite, hr, hro]
      split <;> simp
    · intro hpriv hro
      refine ⟨csrs.map (fun q =>
          if q.number = n then
            { q with value := q.value &&& natNot xlen q.writeMask ||| (src &&& q.writeMask) }
          else q), ?_, ?_, ?_⟩
      · simp only [csrWrite, hr, hro]
        rw [if_neg (by omega)]
        simp
      · unfold csrValue
        rw [findCsr_map_pres _ _ _ (fun q => by split <;> rfl)]
        rw [hr]
        simp [hnum]
      · intro hv k hk
        unfold csrValue
        rw [findCsr_map_pres _ _ _ (fun q => by split <;> rfl)]
        rw [hr]
        simp [hnum]
        rw [hk]
        unfold natNot
        rw [Nat.testBit_xor, Nat.testBit_two_pow_sub_one, hk]
        rcases lt_or_le k xlen with hkx | hkx
        · simp [hkx]
        · have hvk : r.value < 2 ^ k :=
            lt_of_lt_of_le hv (Nat.pow_le_pow_right (by norm_num) hkx)
          rw [Nat.testBit_lt_two_pow hvk]
          simp

/-- Witness for C8: writes to an unimplemented number, to the read-only
`mvendorid`, to `mstatus` from user mode, and a successful `mstatus`
write, on the reset CSR file of a 32-bit core. -/
theorem csrWrite_rules_witness :
    csrWrite 32 (mkCsrs 32) 0x777 5 MACHINE_MODE = none ∧
    csrWrite 32 (mkCsrs 32) MVENDORID_NUM 5 MACHINE_MODE = none ∧
    csrWrite 32 (mkCsrs 32) MSTATUS_NUM 5 USER_MODE = none ∧
    ∃ csrs', csrWrite 32 (mkCsrs 32) MSTATUS_NUM 5 MACHINE_MODE = some csrs' ∧
      csrValue csrs' MSTATUS_NUM = 5 := by
  have h1 := (csrWrite_rules 32 (mkCsrs 32) 0x777 5 MACHINE_MODE).1 (by decide)
  have h2 := ((csrWrite_rules 32 (mkCsrs 32) MVENDORID_NUM 5 MACHINE_MODE).2
    (mkCsr MVENDORID_NUM 0 0 MACHINE_MODE true) (by decide)).2.1 (by decide)
  have h3 := ((csrWrite_rules 32 (mkCsrs 32) MSTATUS_NUM 5 USER_MODE).2
    (mkCsr MSTATUS_NUM 0 (2 ^ 32 - 1) MACHINE_MODE false) (by decide)).1 (by decide)
  have h4 := ((csrWrite_rules 32 (mkCsrs 32) MSTATUS_NUM 5 MACHINE_MODE).2
    (mkCsr MSTATUS_NUM 0 (2 ^ 32 - 1) MACHINE_MODE false) (by decide)).2.2
    (by decide) (by decide)
  refine ⟨h1, h2, h3, ?_⟩
  rcases h4 with ⟨csrs', heq, hval, -⟩
  refine ⟨csrs', heq, ?_⟩
  rw [hval]
  decide

/-! ## C9: debug interface failure behaviour -/

theorem memWriteBytes_oob : ∀ (n : Nat) (mem : List Nat) (addr v : Nat),
    1 ≤ n → mem.length < addr + n → memWriteBytes mem addr n v = none := by
  intro n
  induction n with
  | zero => intro mem addr v h _; omega
  | succ m ih =>
    intro mem addr v _ h2
    unfold memWriteBytes
    split
    · rename_i hlt
      rcases Nat.eq_zero_or_pos m with hm | hm
      · subst hm
        exact absurd hlt (by omega)
      · exact ih _ _ _ hm (by rw [List.length_set]; omega)
    · rfl

/-- C9: every out-of-range debug access — integer register peek/poke
beyond the register count, CSR peek/poke at an unimplemented number,
memory peek/poke beyond the memory size — returns false, leaves the
output argument unmodified, and leaves the core state unchanged. -/
theorem peek_poke_oob (c : Core) (reg n addr addrw v val : Nat)
    (hreg : c.intRegs.length ≤ reg)
    (hcsr : findCsr c.csRegs n = none)
    (haddr : c.mem.length ≤ addr)
    (hw : c.mem.length < addrw + 4) :
    c.peekIntReg reg val = (false, val) ∧
    c.pokeIntReg reg v = (false, c) ∧
    c.peekCsr n val = (false, val) ∧
    c.pokeCsr n v = (false, c) ∧
    c.peekMemory addr val = (false, val) ∧
    c.pokeMemory addrw v = (false, c) := by
  refine ⟨?_, ?_, ?_, ?_, ?_, ?_⟩
  · unfold Core.peekIntReg
    rw [if_neg (by omega)]
  · unfold Core.pokeIntReg
    rw [if_neg (by omega)]
  · unfold Core.peekCsr
    rw [hcsr]
  · unfold Core.pokeCsr
    rw [hcsr]
  · unfold Core.peekMemory
    rw [if_neg (by omega)]
  · unfold Core.pokeMemory
    rw [memWriteBytes_oob 4 c.mem addrw v (by omega) hw]

/-- Witness for C9 on a small 32-bit core. -/
theorem peek_poke_oob_witness :
    (mkCore 32 8 4).peekIntReg 4 7 = (false, 7) ∧
    (mkCore 32 8 4).pokeIntReg 4 9 = (false, mkCore 32 8 4) ∧
    (mkCore 32 8 4).peekCsr 0x111 7 = (false, 7) ∧
    (mkCore 32 8 4).pokeCsr 0x111 9 = (false, mkCore 32 8 4) ∧
    (mkCore 32 8 4).peekMemory 8 7 = (false, 7) ∧
    (mkCore 32 8 4).pokeMemory 6 9 = (false, mkCore 32 8 4) :=
  peek_poke_oob (mkCore 32 8 4) 4 0x111 8 6 9 7 (by decide) (by decide)
    (by decide) (by decide)

/-! ## C5: register x0 reads as zero -/

theorem preExec_intRegs (c : Core) (s : Nat) : (c.preExec s).intRegs = c.intRegs := rfl

theorem initiateTrap_intRegs (c : Core) (b : Bool) (cause p i : Nat) :
    (c.initiateTrap b cause p i).intRegs = c.intRegs := rfl

theorem setReg_getD_zero (c : Core) (i v : Nat) :
    (c.setReg i v).intRegs.getD 0 0 = c.intRegs.getD 0 0 :=
  intRegsWrite_getD_zero _ _ _

theorem execInstr_regs0 (c : Core) (w : Nat) (i : Instr) :
    (c.execInstr w i).core.intRegs.getD 0 0 = c.intRegs.getD 0 0 := by
  cases i <;>
    simp only [Core.execInstr, Core.execBranch, Core.execJal, Core.execJalr,
      Core.execLui, Core.execAuipc, Core.execAluImm, Core.execShiftImm,
      Core.execAluReg, Core.execMulDiv, Core.execLoad, Core.execStore,
      Core.execCsrrw, Core.execCsrrsc, Core.execEcall, Core.execMret,
      Core.execDiv, Core.execDivu, Core.execRem, Core.execRemu,
      retireOut, trapOut] <;>
    try rfl
  case branch op rs1 rs2 off =>
    split
    · split <;> rfl
    · rfl
  case jal rd off => exact setReg_getD_zero _ _ _
  case jalr rd rs1 off => exact setReg_getD_zero _ _ _
  case lui rd imm => exact setReg_getD_zero _ _ _
  case auipc rd imm => exact setReg_getD_zero _ _ _
  case alui op rd rs1 imm => exact setReg_getD_zero _ _ _
  case shifti op rd rs1 amount => exact setReg_getD_zero _ _ _
  case alu op rd rs1 rs2 => exact setReg_getD_zero _ _ _
  case muldiv op rd rs1 rs2 =>
    cases op <;> exact setReg_getD_zero _ _ _
  case load op rd rs1 imm =>
    split
    · rfl
    · split
      · rfl
      · split <;> first | rfl | exact setReg_getD_zero _ _ _
  case store op rs1 rs2 imm =>
    split
    · rfl
    · split
      · rfl
      · split <;> rfl
  case sys op =>
    cases op <;>
      simp only [Core.execInstr, Core.execEcall, Core.execMret, retireOut, trapOut] <;>
      try rfl
    case mret =>
      split <;> rfl
  case csr op immForm rd csrn src =>
    cases op <;>
      simp only [Core.execInstr, Core.execCsrrw, Core.execCsrrsc, retireOut, trapOut]
    case rw =>
      split
      · rfl
      · split
        · rfl
        · exact setReg_getD_zero _ _ _
    case rs =>
      split
      · rfl
      · split
        · exact setReg_getD_zero _ _ _
        · split
          · rfl
          · exact setReg_getD_zero _ _ _
    case rc =>
      split
      · rfl
      · split
        · exact setReg_getD_zero _ _ _
        · split
          · rfl
          · exact setReg_getD_zero _ _ _

theorem execute32_regs0 (c : Core) (w : Nat) :
    (c.execute32 w).core.intRegs.getD 0 0 = c.intRegs.getD 0 0 :=
  execInstr_regs0 _ _ _

theorem execute16_regs0 (c : Core) (h : Nat) :
    (c.execute16 h).core.intRegs.getD 0 0 = c.intRegs.getD 0 0 := by
  unfold Core.execute16
  split
  · rfl
  · exact execInstr_regs0 _ _ _

theorem stepExec_regs0 (eo : ExecOut) :
    (Core.stepExec eo).1.intRegs.getD 0 0 = eo.core.intRegs.getD 0 0 := by
  rcases eo with ⟨core, trap, sa⟩
  rcases trap with - | ⟨cause, info⟩
  · unfold Core.stepExec
    dsimp only
    split <;> rfl
  · rfl

theorem step_regs0 (c : Core) : (c.step).1.intRegs.getD 0 0 = c.intRegs.getD 0 0 := by
  unfold Core.step
  split
  · simp [Core.initiateInterrupt, initiateTrap_intRegs]
  · split
    · rfl
    · split
      · simp [Core.initiateException, initiateTrap_intRegs]
      · rename_i w size _
        rw [stepExec_regs0]
        by_cases h4 : size = 4
        · rw [if_pos h4, execute32_regs0, preExec_intRegs]
        · rw [if_neg h4, execute16_regs0, preExec_intRegs]

theorem runActs_regs0 (acts : List DebugAct) : ∀ c : Core,
    (c.runActs acts).intRegs.getD 0 0 = c.intRegs.getD 0 0 := by
  induction acts with
  | nil => intro c; rfl
  | cons a rest ih =>
    intro c
    cases a <;> unfold Core.runActs <;> dsimp only <;> rw [ih]
    · exact step_regs0 c
    · unfold Core.pokeIntReg
      split
      · exact intRegsWrite_getD_zero _ _ _
      · rfl
    · unfold Core.pokeCsr
      split <;> rfl
    · unfold Core.pokeMemory
      split <;> rfl
    · rfl

/-- C5: across any interleaving of executed instructions and debug
pokes, integer register 0 reads as zero: the register file discards
writes to index 0, and from any state satisfying the reset invariant
`intRegs[0] == 0`, the invariant still holds — and reads of x0 return
0 — after the whole sequence. -/
theorem x0_always_zero (c : Core) (acts : List DebugAct)
    (h : c.intRegs.getD 0 0 = 0) :
    (c.runActs acts).intRead 0 = 0 ∧
    (c.runActs acts).intRegs.getD 0 0 = 0 ∧
    (∀ (regs : List Nat) (v : Nat), intRegsWrite regs 0 v = regs) := by
  have h1 := runActs_regs0 acts c
  rw [h] at h1
  exact ⟨h1, h1, fun regs v => rfl⟩

/-- Witness for C5: a run of one step plus pokes (including a poke to
x0, which is discarded) on the reset core. -/
theorem x0_always_zero_witness :
    ((mkCore 32 8 4).runActs [.pokeRegA 0 7, .pokeRegA 1 5, .stepA]).intRead 0 = 0 :=
  (x0_always_zero (mkCore 32 8 4) [.pokeRegA 0 7, .pokeRegA 1 5, .stepA] (by decide)).1

/-! ## C2: trap entry -/

/-- Extract a `w`-bit field at bit position `k` from a value written
as low part + field + high part. -/
theorem extract_field (A B C k w : Nat) (hA : A < 2 ^ k) (hB : B < 2 ^ w) :
    (A + B * 2 ^ k + C * 2 ^ (k + w)) / 2 ^ k % 2 ^ w = B := by
  have h1 : A + B * 2 ^ k + C * 2 ^ (k + w) = A + 2 ^ k * (B + 2 ^ w * C) := by
    rw [pow_add]
    ring
  rw [h1, Nat.add_mul_div_left _ _ (by positivity), Nat.div_eq_of_lt hA]
  simp [Nat.add_mul_mod_self_left, Nat.mod_eq_of_lt hB]

theorem trapMstatus_MPIE (old priv : Nat) :
    mstatusMPIE (trapMstatus old priv) = mstatusMIE old := by
  unfold mstatusMPIE mstatusMIE
  have h : trapMstatus old priv
      = (old % 8 + old / 16 % 8 * 16) + (old / 8 % 2) * 2 ^ 7
        + (old / 256 % 8 + priv % 4 * 8 + old / 8192 * 32) * 2 ^ (7 + 1) := by
    unfold trapMstatus
    ring
  rw [h]
  have he := extract_field (old % 8 + old / 16 % 8 * 16) (old / 8 % 2)
    (old / 256 % 8 + priv % 4 * 8 + old / 8192 * 32) 7 1 (by omega) (by omega)
  norm_num at he ⊢
  exact he

theorem trapMstatus_MIE (old priv : Nat) :
    mstatusMIE (trapMstatus old priv) = 0 := by
  unfold mstatusMIE
  have h : trapMstatus old priv
      = (old % 8) + 0 * 2 ^ 3
        + (old / 16 % 8 + old / 8 % 2 * 8 + old / 256 % 8 * 16 + priv % 4 * 128
           + old / 8192 * 512) * 2 ^ (3 + 1) := by
    unfold trapMstatus
    ring
  rw [h]
  have he := extract_field (old % 8) 0
    (old / 16 % 8 + old / 8 % 2 * 8 + old / 256 % 8 * 16 + priv % 4 * 128
      + old / 8192 * 512) 3 1 (by omega) (by omega)
  norm_num at he ⊢
  exact he

theorem trapMstatus_MPP (old priv : Nat) (h : priv < 4) :
    mstatusMPP (trapMstatus old priv) = priv := by
  unfold mstatusMPP
  have hp : priv % 4 = priv := Nat.mod_eq_of_lt h
  have hh : trapMstatus old priv
      = (old % 8 + old / 16 % 8 * 16 + old / 8 % 2 * 128 + old / 256 % 8 * 256)
        + (priv % 4) * 2 ^ 11 + (old / 8192) * 2 ^ (11 + 2) := by
    unfold trapMstatus
    ring
  rw [hh]
  have he := extract_field
    (old % 8 + old / 16 % 8 * 16 + old / 8 % 2 * 128 + old / 256 % 8 * 256)
    (priv % 4) (old / 8192) 11 2 (by omega) (by omega)
  norm_num at he ⊢
  rw [he, hp]

theorem findCsr_poke_ne_none (csrs : List Csr) (m v n : Nat)
    (h : findCsr csrs n ≠ none) : findCsr (csrPoke csrs m v) n ≠ none := by
  unfold csrPoke
  rw [findCsr_map_pres _ _ _ (pokeFun_pres_number m v)]
  rcases hr : findCsr csrs n with - | r
  · exact absurd hr h
  · simp

/-- C2: `initiateTrap` sets `mcause` to the cause with bit XLEN−1
set exactly for interrupts, `mtval` to the supplied info, `mepc` to
the supplied pc to save; `mstatus.MPIE` receives the old `MIE`, `MIE`
becomes 0, `MPP` receives the old privilege; the privilege becomes
machine; the pc is redirected to `mtvec.BASE` (plus `4*cause` in
vectored mode for interrupts); and the run loop saves `pc` (the next
instruction) when delivering an interrupt. -/
theorem initiateTrap_spec (c : Core) (interrupt : Bool) (cause pcToSave info : Nat)
    (hc : cause < 2 ^ (c.xlen - 1)) (hpm : c.privMode < 4)
    (hmcause : findCsr c.csRegs MCAUSE_NUM ≠ none)
    (hmtval : findCsr c.csRegs MTVAL_NUM ≠ none)
    (hmepc : findCsr c.csRegs MEPC_NUM ≠ none)
    (hmstatus : findCsr c.csRegs MSTATUS_NUM ≠ none) :
    csrValue (c.initiateTrap interrupt cause pcToSave info).csRegs MCAUSE_NUM
      = ((if interrupt then 2 ^ (c.xlen - 1) else 0) ||| cause) ∧
    (csrValue (c.initiateTrap interrupt cause pcToSave info).csRegs MCAUSE_NUM).testBit
      (c.xlen - 1) = interrupt ∧
    csrValue (c.initiateTrap interrupt cause pcToSave info).csRegs MTVAL_NUM = info ∧
    csrValue (c.initiateTrap interrupt cause pcToSave info).csRegs MEPC_NUM = pcToSave ∧
    mstatusMPIE (csrValue (c.initiateTrap interrupt cause pcToSave info).csRegs MSTATUS_NUM)
      = mstatusMIE (csrValue c.csRegs MSTATUS_NUM) ∧
    mstatusMIE (csrValue (c.initiateTrap interrupt cause pcToSave info).csRegs MSTATUS_NUM)
      = 0 ∧
    mstatusMPP (csrValue (c.initiateTrap interrupt cause pcToSave info).csRegs MSTATUS_NUM)
      = c.privMode ∧
    (c.initiateTrap interrupt cause pcToSave info).privMode = MACHINE_MODE ∧
    (c.initiateTrap interrupt cause pcToSave info).pc
      = (if interrupt ∧ csrValue c.csRegs MTVEC_NUM % 4 = 1
         then csrValue c.csRegs MTVEC_NUM / 4 * 4 + 4 * cause
         else csrValue c.csRegs MTVEC_NUM / 4 * 4) ∧
    (∀ icause, c.pendingInterrupt = some icause →
      (c.step).1 = c.initiateTrap true icause c.pc 0) := by
  have hne : (MSTATUS_NUM = MCAUSE_NUM) = False := by simp [MSTATUS_NUM, MCAUSE_NUM]
  refine ⟨?_, ?_, ?_, ?_, ?_, ?_, ?_, rfl, rfl, ?_⟩
  · unfold Core.initiateTrap
    dsimp only
    rw [csrValue_poke_ne _ _ _ _ (by decide), csrValue_poke_ne _ _ _ _ (by decide),
      csrValue_poke_ne _ _ _ _ (by decide), csrValue_poke_self _ _ _ hmcause]
  · unfold Core.initiateTrap
    dsimp only
    rw [csrValue_poke_ne _ _ _ _ (by decide), csrValue_poke_ne _ _ _ _ (by decide),
      csrValue_poke_ne _ _ _ _ (by decide), csrValue_poke_self _ _ _ hmcause]
    cases interrupt
    · simp only [Bool.false_eq_true, if_neg (by simp : ¬False)]
      simp only [Nat.zero_or]
      exact Nat.testBit_lt_two_pow hc
    · simp only [if_true]
      rw [Nat.testBit_lor, Nat.testBit_two_pow_self, Nat.testBit_lt_two_pow hc]
      rfl
  · unfold Core.initiateTrap
    dsimp only
    rw [csrValue_poke_ne _ _ _ _ (by decide), csrValue_poke_ne _ _ _ _ (by decide),
      csrValue_poke_self _ _ _ (findCsr_poke_ne_none _ _ _ _ hmtval)]
  · unfold Core.initiateTrap
    dsimp only
    rw [csrValue_poke_ne _ _ _ _ (by decide),
      csrValue_poke_self _ _ _
        (findCsr_poke_ne_none _ _ _ _ (findCsr_poke_ne_none _ _ _ _ hmepc))]
  · unfold Core.initiateTrap
    dsimp only
    rw [csrValue_poke_self _ _ _
      (findCsr_poke_ne_none _ _ _ _ (findCsr_poke_ne_none _ _ _ _
        (findCsr_poke_ne_none _ _ _ _ hmstatus)))]
    exact trapMstatus_MPIE _ _
  · unfold Core.initiateTrap
    dsimp only
    rw [csrValue_poke_self _ _ _
      (findCsr_poke_ne_none _ _ _ _ (findCsr_poke_ne_none _ _ _ _
        (findCsr_poke_ne_none _ _ _ _ hmstatus)))]
    exact trapMstatus_MIE _ _
  · unfold Core.initiateTrap
    dsimp only
    rw [csrValue_poke_self _ _ _
      (findCsr_poke_ne_none _ _ _ _ (findCsr_poke_ne_none _ _ _ _
        (findCsr_poke_ne_none _ _ _ _ hmstatus)))]
    exact trapMstatus_MPP _ _ hpm
  · intro icause hpend
    unfold Core.step
    rw [hpend]
    rfl

/-- Core used to exercise C2 concretely: machine mode, vectored
`mtvec` base 0x40, `mstatus.MIE` set. -/
def trapCore : Core :=
  { mkCore 32 16 4 with
    pc := 8,
    currPc := 6,
    csRegs := csrPoke (csrPoke (mkCsrs 32) MTVEC_NUM 0x41) MSTATUS_NUM 8 }

/-- Witness for C2: a synchronous illegal-instruction trap and a
vectored machine-external interrupt on `trapCore`. -/
theorem initiateTrap_spec_witness :
    csrValue (trapCore.initiateTrap false 2 6 0x1234).csRegs MCAUSE_NUM = 2 ∧
    (csrValue (trapCore.initiateTrap false 2 6 0x1234).csRegs MCAUSE_NUM).testBit 31
      = false ∧
    csrValue (trapCore.initiateTrap false 2 6 0x1234).csRegs MTVAL_NUM = 0x1234 ∧
    csrValue (trapCore.initiateTrap false 2 6 0x1234).csRegs MEPC_NUM = 6 ∧
    mstatusMPIE
      (csrValue (trapCore.initiateTrap false 2 6 0x1234).csRegs MSTATUS_NUM) = 1 ∧
    mstatusMIE
      (csrValue (trapCore.initiateTrap false 2 6 0x1234).csRegs MSTATUS_NUM) = 0 ∧
    mstatusMPP
      (csrValue (trapCore.initiateTrap false 2 6 0x1234).csRegs MSTATUS_NUM) = 3 ∧
    (trapCore.initiateTrap false 2 6 0x1234).privMode = MACHINE_MODE ∧
    (trapCore.initiateTrap false 2 6 0x1234).pc = 0x40 ∧
    (trapCore.initiateTrap true 11 8 0).pc = 0x40 + 4 * 11 := by
  have h1 := initiateTrap_spec trapCore false 2 6 0x1234 (by decide)
    (by decide) (by decide) (by decide) (by decide) (by decide)
  have h2 := initiateTrap_spec trapCore true 11 8 0 (by decide)
    (by decide) (by decide) (by decide) (by decide) (by decide)
  obtain ⟨a1, a2, a3, a4, a5, a6, a7, a8, a9, -⟩ := h1
  obtain ⟨-, -, -, -, -, -, -, -, b9, -⟩ := h2
  have hmst : mstatusMIE (csrValue trapCore.csRegs MSTATUS_NUM) = 1 := by decide
  have hmtv : csrValue trapCore.csRegs MTVEC_NUM = 0x41 := by decide
  refine ⟨by rw [a1]; decide, a2, a3, a4, ?_, a6, by rw [a7]; rfl, a8, ?_, ?_⟩
  · rw [a5, hmst]
  · rw [a9, hmtv]
    decide
  · rw [b9, hmtv]
    decide

/-! ## C3: CSR instruction semantics -/

theorem csrRead_some (csrs : List Csr) (n priv : Nat) (r : Csr)
    (hr : findCsr csrs n = some r) (hpriv : r.minPriv ≤ priv) :
    csrRead csrs n priv = some r.value := by
  simp only [csrRead, hr]
  rw [if_neg (by omega)]

theorem csrWrite_none_of_ro (xlen : Nat) (csrs : List Csr) (n src priv : Nat) (r : Csr)
    (hr : findCsr csrs n = some r) (hpriv : r.minPriv ≤ priv)
    (hro : r.isReadOnly = true) :
    csrWrite xlen csrs n src priv = none := by
  simp only [csrWrite, hr, hro]
  rw [if_neg (by omega)]
  simp

theorem csrWrite_some_of_rw (xlen : Nat) (csrs : List Csr) (n src priv : Nat) (r : Csr)
    (hr : findCsr csrs n = some r) (hpriv : r.minPriv ≤ priv)
    (hro : r.isReadOnly = false) :
    csrWrite xlen csrs n src priv
      = some (csrs.map (fun q =>
          if q.number = n then
            { q with value := q.value &&& natNot xlen q.writeMask ||| (src &&& q.writeMask) }
          else q)) := by
  simp only [csrWrite, hr, hro]
  rw [if_neg (by omega)]
  simp

/-- C3: the CSR read is suppressed only for CSRRW with `rd = x0`; the
write is suppressed only for CSRRS/CSRRC (or the immediate forms) with
a zero source designator, in which case a read-only CSR does not trap
and rd still receives the CSR value; CSRRW always attempts the write,
so CSRRW targeting a read-only CSR (for any rd, even x0, and any
source, even x0/0) raises ILLEGAL_INST = 2 — after trap delivery
`mcause = 2` — and leaves the CSR value unchanged. -/
theorem csr_instr_semantics (c : Core) (rd csrn src inst : Nat) (immForm : Bool)
    (r : Csr) (hr : findCsr c.csRegs csrn = some r) (hpriv : r.minPriv ≤ c.privMode) :
    (r.isReadOnly = true →
      (c.execCsrrw rd csrn src immForm inst).trap = some (ILLEGAL_INST, inst) ∧
      (c.execCsrrw rd csrn src immForm inst).core = c) ∧
    (∀ set : Bool, src = 0 →
      (c.execCsrrsc set rd csrn src immForm inst).trap = none ∧
      (c.execCsrrsc set rd csrn src immForm inst).core = c.setReg rd r.value ∧
      (c.execCsrrsc set rd csrn src immForm inst).core.csRegs = c.csRegs) ∧
    (∀ set : Bool, src ≠ 0 → r.isReadOnly = true →
      (c.execCsrrsc set rd csrn src immForm inst).trap = some (ILLEGAL_INST, inst) ∧
      (c.execCsrrsc set rd csrn src immForm inst).core = c) ∧
    (r.isReadOnly = false → rd ≠ 0 →
      (c.execCsrrw rd csrn src immForm inst).trap = none ∧
      (rd < c.intRegs.length →
        (c.execCsrrw rd csrn src immForm inst).core.intRead rd
          = maskToXlen c.xlen r.value)) ∧
    (r.isReadOnly = true →
     findCsr c.csRegs MCAUSE_NUM ≠ none →
     csrn ≠ MSTATUS_NUM → csrn ≠ MEPC_NUM → csrn ≠ MCAUSE_NUM → csrn ≠ MTVAL_NUM →
      csrValue ((Core.stepExec (c.execCsrrw rd csrn src immForm inst)).1).csRegs
        MCAUSE_NUM = ILLEGAL_INST ∧
      csrValue ((Core.stepExec (c.execCsrrw rd csrn src immForm inst)).1).csRegs
        csrn = r.value) := by
  have hread := csrRead_some c.csRegs csrn c.privMode r hr hpriv
  refine ⟨?_, ?_, ?_, ?_, ?_⟩
  · intro hro
    have hw := csrWrite_none_of_ro c.xlen c.csRegs csrn
      (if immForm then src else c.intRead src) c.privMode r hr hpriv hro
    by_cases hrd : rd = 0
    · simp [Core.execCsrrw, hrd, hw, trapOut]
    · simp [Core.execCsrrw, hrd, hread, hw, trapOut]
  · intro set hsrc
    simp [Core.execCsrrsc, hsrc, hread, retireOut, Core.setReg]
  · intro set hsrc hro
    have hw1 := csrWrite_none_of_ro c.xlen c.csRegs csrn
      (r.value ||| (if immForm then src else c.intRead src)) c.privMode r hr hpriv hro
    have hw2 := csrWrite_none_of_ro c.xlen c.csRegs csrn
      (r.value &&& natNot c.xlen (if immForm then src else c.intRead src))
      c.privMode r hr hpriv hro
    cases set <;> simp [Core.execCsrrsc, hsrc, hread, hw1, hw2, trapOut]
  · intro hro hrd
    have hw := csrWrite_some_of_rw c.xlen c.csRegs csrn
      (if immForm then src else c.intRead src) c.privMode r hr hpriv hro
    constructor
    · simp [Core.execCsrrw, hrd, hread, hw, retireOut]
    · intro hlen
      simp only [Core.execCsrrw, if_neg hrd, hread, hw, retireOut]
      exact setReg_read_self _ rd r.value hrd hlen
  · intro hro hmc h1 h2 h3 h4
    have hw := csrWrite_none_of_ro c.xlen c.csRegs csrn
      (if immForm then src else c.intRead src) c.privMode r hr hpriv hro
    have htrap : (c.execCsrrw rd csrn src immForm inst)
        = trapOut c ILLEGAL_INST inst := by
      by_cases hrd : rd = 0
      · simp [Core.execCsrrw, hrd, hw, trapOut]
      · simp [Core.execCsrrw, hrd, hread, hw, trapOut]
    rw [htrap]
    unfold Core.stepExec trapOut
    dsimp only
    unfold Core.initiateException Core.initiateTrap
    dsimp only
    constructor
    · rw [csrValue_poke_ne _ _ _ _ (by decide), csrValue_poke_ne _ _ _ _ (by decide),
        csrValue_poke_ne _ _ _ _ (by decide), csrValue_poke_self _ _ _ hmc]
      simp [ILLEGAL_INST]
    · rw [csrValue_poke_ne _ _ _ _ (Ne.symm h1), csrValue_poke_ne _ _ _ _ (Ne.symm h2),
        csrValue_poke_ne _ _ _ _ (Ne.symm h4), csrValue_poke_ne _ _ _ _ (Ne.symm h3)]
      unfold csrValue
      rw [hr]

/-- Core for the C3 witness: reset CSR file, `mvendorid` value 0. -/
def csrCore : Core := mkCore 32 8 4

/-- Witness for C3: `csrrw x0, mvendorid, x0` traps with
`mcause = 2` and leaves `mvendorid` unchanged; `csrrs x1, mvendorid,
x0` does not trap; `csrrs x0, mvendorid, x1` (nonzero rs1 index)
traps. -/
theorem csr_instr_semantics_witness :
    (csrCore.execCsrrw 0 MVENDORID_NUM 0 false 0x73).trap = some (2, 0x73) ∧
    (csrCore.execCsrrsc true 1 MVENDORID_NUM 0 false 0x73).trap = none ∧
    (csrCore.execCsrrsc true 0 MVENDORID_NUM 1 false 0x73).trap
      = some (2, 0x73) ∧
    csrValue ((Core.stepExec
      (csrCore.execCsrrw 0 MVENDORID_NUM 0 false 0x73)).1).csRegs MCAUSE_NUM = 2 ∧
    csrValue ((Core.stepExec
      (csrCore.execCsrrw 0 MVENDORID_NUM 0 false 0x73)).1).csRegs MVENDORID_NUM
      = 0 := by
  have h := csr_instr_semantics csrCore 0 MVENDORID_NUM 0 0x73 false
    (mkCsr MVENDORID_NUM 0 0 MACHINE_MODE true) (by decide) (by decide)
  have h2 := csr_instr_semantics csrCore 1 MVENDORID_NUM 0 0x73 false
    (mkCsr MVENDORID_NUM 0 0 MACHINE_MODE true) (by decide) (by decide)
  have h3 := csr_instr_semantics csrCore 0 MVENDORID_NUM 1 0x73 false
    (mkCsr MVENDORID_NUM 0 0 MACHINE_MODE true) (by decide) (by decide)
  have hfin := h.2.2.2.2 (by decide) (by decide) (by decide) (by decide) (by decide)
    (by decide)
  exact ⟨(h.1 (by decide)).1, (h2.2.1 true (by decide)).1,
    (h3.2.2.1 true (by decide) (by decide)).1, hfin.1, hfin.2⟩

/-! ## C4: control-flow invariant -/

/-- Opcodes that write `pc` directly: jumps and the xRET returns. -/
def Instr.isJump : Instr → Bool
  | .jal _ _ => true
  | .jalr _ _ _ => true
  | .sys .mret => true
  | .sys .sret => true
  | .sys .uret => true
  | _ => false

/-- Whether the operation is a branch whose condition holds in the
given state (only such branches redirect `pc`). -/
def Instr.branchTaken (i : Instr) (c : Core) : Bool :=
  match i with
  | .branch op rs1 rs2 _ => brTaken c.xlen op (c.intRead rs1) (c.intRead rs2)
  | _ => false

theorem execInstr_pc (c : Core) (w : Nat) (i : Instr)
    (hj : i.isJump = false) (hb : i.branchTaken c = false) :
    (c.execInstr w i).core.pc = c.pc := by
  cases i <;>
    simp only [Core.execInstr, Core.execLui, Core.execAuipc, Core.execAluImm,
      Core.execShiftImm, Core.execAluReg, Core.execEcall, retireOut, trapOut] <;>
    try rfl
  case branch op rs1 rs2 off =>
    simp only [Instr.branchTaken] at hb
    simp [Core.execBranch, hb, retireOut]
  case jal rd off => simp [Instr.isJump] at hj
  case jalr rd rs1 off => simp [Instr.isJump] at hj
  case muldiv op rd rs1 rs2 =>
    cases op <;>
      simp only [Core.execMulDiv, Core.execDiv, Core.execDivu, Core.execRem,
        Core.execRemu, retireOut] <;> rfl
  case load op rd rs1 imm =>
    simp only [Core.execLoad]
    split
    · rfl
    · split
      · rfl
      · split <;> rfl
  case store op rs1 rs2 imm =>
    simp only [Core.execStore]
    split
    · rfl
    · split
      · rfl
      · split <;> rfl
  case sys op =>
    cases op <;>
      simp only [Core.execInstr, Core.execEcall, Core.execMret, retireOut, trapOut] <;>
      first
        | rfl
        | simp [Instr.isJump] at hj
  case csr op immForm rd csrn src =>
    cases op <;>
      simp only [Core.execInstr, Core.execCsrrw, Core.execCsrrsc, retireOut, trapOut]
    case rw =>
      split
      · rfl
      · split <;> rfl
    case rs =>
      split
      · rfl
      · split
        · rfl
        · split <;> rfl
    case rc =>
      split
      · rfl
      · split
        · rfl
        · split <;> rfl

/-- C4: after the fetch stage (`currPc ← pc; pc ← pc + instSize`,
spec §4.7 step 5, `Core.hpp` lines 223–235) the state handed to
`execute32`/`execute16` has `currPc` at the instruction address and
`pc` at the post-fetch value; and every handler that does not trap, is
not a jump or xRET, and is not a taken branch leaves `pc` at that
post-fetch value. -/
theorem pc_post_fetch_invariant (c : Core) (w size : Nat) (i : Instr)
    (_ht : (c.execInstr w i).trap = none)
    (hj : i.isJump = false) (hb : i.branchTaken c = false) :
    (c.preExec size).currPc = c.pc ∧
    (c.preExec size).pc = maskToXlen c.xlen (c.pc + size) ∧
    (c.pc + size < 2 ^ c.xlen → (c.preExec size).pc = c.pc + size) ∧
    (c.execInstr w i).core.pc = c.pc :=
  ⟨rfl, rfl, fun h => maskToXlen_eq_of_lt h, execInstr_pc c w i hj hb⟩

/-- Core at pc 0x10 for the C4 witness. -/
def c4Core : Core := { mkCore 32 8 4 with pc := 0x10 }

/-- Witness for C4: fetching a 4-byte instruction at 0x10 sets
`currPc = 0x10`, `pc = 0x14`; executing `addi x1, x0, 5` leaves `pc`
unchanged. -/
theorem pc_post_fetch_invariant_witness :
    (c4Core.preExec 4).currPc = 0x10 ∧
    (c4Core.preExec 4).pc = 0x14 ∧
    (c4Core.execInstr 0 (.alui .addi 1 0 5)).core.pc = 0x10 := by
  have h := pc_post_fetch_invariant c4Core 0 4 (.alui .addi 1 0 5)
    (by decide) (by decide) (by decide)
  exact ⟨h.1, by rw [h.2.2.1 (by decide)]; decide, h.2.2.2⟩

/-! ## C6: tohost termination -/

theorem execStore_mem (c : Core) (op : StoreOp) (rs1 rs2 : Nat) (imm : Int) (inst : Nat)
    (hst : (c.execStore op rs1 rs2 imm inst).trap = none) :
    ∃ m, memWriteBytes c.mem (toURV c.xlen ((c.intRead rs1 : Int) + imm)) op.width
        (c.intRead rs2) = some m ∧
      (c.execStore op rs1 rs2 imm inst).core.mem = m ∧
      (c.execStore op rs1 rs2 imm inst).storeAddr
        = some (toURV c.xlen ((c.intRead rs1 : Int) + imm)) := by
  unfold Core.execStore at hst ⊢
  split at hst
  · simp [trapOut] at hst
  · rename_i h1
    rw [if_neg h1]
    dsimp only at hst ⊢
    split at hst
    · simp [trapOut] at hst
    · rename_i h2
      rw [if_neg h2]
      split at hst
      · simp [trapOut] at hst
      · rename_i m hm
        refine ⟨m, hm, ?_, ?_⟩ <;> simp [hm]

theorem execInstr_storeAddr_none (c : Core) (w : Nat) (i : Instr)
    (hns : ∀ (sop : StoreOp) (s1 s2 : Nat) (im : Int), i ≠ .store sop s1 s2 im) :
    (c.execInstr w i).storeAddr = none := by
  cases i <;>
    simp only [Core.execInstr, Core.execLui, Core.execAuipc, Core.execAluImm,
      Core.execShiftImm, Core.execAluReg, Core.execJal, Core.execJalr,
      Core.execEcall, retireOut, trapOut] <;>
    try rfl
  case branch op rs1 rs2 off =>
    simp only [Core.execBranch]
    split
    · split <;> rfl
    · rfl
  case muldiv op rd rs1 rs2 =>
    cases op <;>
      simp only [Core.execMulDiv, Core.execDiv, Core.execDivu, Core.execRem,
        Core.execRemu, retireOut] <;> rfl
  case load op rd rs1 imm =>
    simp only [Core.execLoad]
    split
    · rfl
    · split
      · rfl
      · split <;> rfl
  case store op rs1 rs2 imm => exact absurd rfl (hns op rs1 rs2 imm)
  case sys op =>
    cases op <;>
      simp only [Core.execInstr, Core.execEcall, Core.execMret, retireOut, trapOut] <;>
      first
        | rfl
        | (split <;> rfl)
  case csr op immForm rd csrn src =>
    cases op <;>
      simp only [Core.execInstr, Core.execCsrrw, Core.execCsrrsc, retireOut, trapOut]
    case rw =>
      split
      · rfl
      · split <;> rfl
    case rs =>
      split
      · rfl
      · split
        · rfl
        · split <;> rfl
    case rc =>
      split
      · rfl
      · split
        · rfl
        · split <;> rfl

/-- C6: with a tohost address configured, a run-loop iteration stops
with reason `toHostWrite` exactly when the executed instruction
retires as a store whose effective address equals the tohost address;
the store completes before the stop (the stopped state carries the
post-store memory); non-store handlers never report a store address;
and a retiring store has written its bytes into memory. -/
theorem tohost_stop (c : Core) (eo : ExecOut) (w size : Nat)
    (hni : c.pendingInterrupt = none)
    (hsa : ¬(c.stopAddrValid = true ∧ c.pc = c.stopAddr))
    (hf : c.fetch = .ok (w, size))
    (heo : eo = (if size = 4 then (c.preExec size).execute32 w
                 else (c.preExec size).execute16 w))
    (ht : eo.trap = none) :
    c.step = ({ eo.core with
                retiredInsts := eo.core.retiredInsts + 1,
                cycleCount := eo.core.cycleCount + 1 },
              if eo.core.toHostValid = true ∧ eo.storeAddr = some eo.core.toHost
              then some .toHostWrite else none) ∧
    (c.step).1.mem = eo.core.mem ∧
    ((c.step).2 = some .toHostWrite ↔
      eo.core.toHostValid = true ∧ eo.storeAddr = some eo.core.toHost) ∧
    (∀ (op : StoreOp) (rs1 rs2 : Nat) (imm : Int) (inst : Nat),
      (c.execStore op rs1 rs2 imm inst).trap = none →
      ∃ m, memWriteBytes c.mem (toURV c.xlen ((c.intRead rs1 : Int) + imm)) op.width
          (c.intRead rs2) = some m ∧
        (c.execStore op rs1 rs2 imm inst).core.mem = m ∧
        (c.execStore op rs1 rs2 imm inst).storeAddr
          = some (toURV c.xlen ((c.intRead rs1 : Int) + imm))) ∧
    (∀ i : Instr, (∀ (sop : StoreOp) (s1 s2 : Nat) (im : Int), i ≠ .store sop s1 s2 im) →
      (c.execInstr w i).storeAddr = none) := by
  have hstep : c.step = Core.stepExec eo := by
    rw [heo]
    unfold Core.step
    rw [hni]
    dsimp only
    rw [if_neg hsa, hf]
  have hse : Core.stepExec eo
      = ({ eo.core with
           retiredInsts := eo.core.retiredInsts + 1,
           cycleCount := eo.core.cycleCount + 1 },
         if eo.core.toHostValid = true ∧ eo.storeAddr = some eo.core.toHost
         then some .toHostWrite else none) := by
    unfold Core.stepExec
    rw [ht]
    dsimp only
    by_cases hcond : eo.core.toHostValid = true ∧ eo.storeAddr = some eo.core.toHost
    · rw [if_pos hcond, if_pos hcond]
    · rw [if_neg hcond, if_neg hcond]
  refine ⟨hstep.trans hse, ?_, ?_, fun op rs1 rs2 imm inst h => execStore_mem c op rs1 rs2 imm inst h,
    fun i h => execInstr_storeAddr_none c w i h⟩
  · rw [hstep, hse]
  · rw [hstep, hse]
    dsimp only
    split
    · rename_i hcond
      simp [hcond]
    · rename_i hcond
      simp [hcond]

/-- Core for the C6 witness: memory holds `sw x2, 0(x1)` at pc 0,
with x1 = 8, x2 = 1, tohost = 8. -/
def c6Core : Core :=
  { mkCore 32 12 4 with
    intRegs := [0, 8, 1, 0],
    toHost := 8,
    toHostValid := true,
    mem := [0x23, 0xA0, 0x20, 0x00, 0, 0, 0, 0, 0, 0, 0, 0] }

/-- Witness for C6: the step retires the store to the tohost address,
stops with `toHostWrite`, and the stored byte is visible in memory. -/
theorem tohost_stop_witness :
    (c6Core.step).2 = some .toHostWrite ∧ (c6Core.step).1.mem.getD 8 0 = 1 := by
  have h := tohost_stop c6Core ((c6Core.preExec 4).execute32 0x0020A023) 0x0020A023 4
    (by decide) (by decide) (by rfl) (by decide) (by decide)
  constructor
  · exact h.2.2.1.mpr ⟨by decide, by decide⟩
  · rw [h.2.1]
    decide

/-! ## C10: run-to-stop-address vs run-until-address -/

/-- C10: with the pc at the boundary address `a` and no interrupt
pending, `run` with stop address `a` exits without executing the
instruction at `a`, while `runUntilAddress a` executes exactly that
one instruction before stopping; away from the boundary both loops
advance by the same `step`. -/
theorem runUntil_vs_run (c : Core) (a n : Nat) (hni : c.pendingInterrupt = none) :
    (c.stopAddrValid = true → c.pc = a → c.stopAddr = a → c.runLoop (n + 1) = c) ∧
    (c.pc = a → Core.runUntilAddress a c (n + 1) = (c.step).1) ∧
    ((c.step).2 = none → c.runLoop (n + 1) = ((c.step).1).runLoop n) ∧
    (c.pc ≠ a → (c.step).2 = none →
      Core.runUntilAddress a c (n + 1) = Core.runUntilAddress a ((c.step).1) n) := by
  refine ⟨?_, ?_, ?_, ?_⟩
  · intro hsv hpc hsa
    have hstep : c.step = (c, some .stopAddrHit) := by
      unfold Core.step
      rw [hni]
      dsimp only
      rw [if_pos ⟨hsv, by rw [hpc, hsa]⟩]
    unfold Core.runLoop
    rw [hstep]
  · intro hpc
    unfold Core.runUntilAddress
    rcases hs : c.step with ⟨c', r⟩
    cases r
    · simp only [hs]
      rw [if_pos ⟨hpc, hni⟩]
    · simp only [hs]
  · intro h2
    unfold Core.runLoop
    rcases hs : c.step with ⟨c', r⟩
    rw [hs] at h2
    simp only at h2
    subst h2
    simp only [hs]
    cases n <;> rfl
  · intro hpc h2
    unfold Core.runUntilAddress
    rcases hs : c.step with ⟨c', r⟩
    rw [hs] at h2
    simp only at h2
    subst h2
    simp only [hs]
    rw [if_neg (by simp [hpc])]
    cases n <;> rfl

/-- Core for the C10 witness: stop address 4 with the pc already
there; `runUntilAddress 4` executes the `addi x1, x0, 5` at address 4
(one more instruction than `run`). -/
def c10Core : Core :=
  { mkCore 32 12 4 with
    pc := 4,
    stopAddr := 4,
    stopAddrValid := true,
    mem := [0, 0, 0, 0, 0x93, 0x00, 0x50, 0x00, 0, 0, 0, 0] }

/-- Witness for C10: `run` stops at once leaving the state unchanged;
`runUntilAddress 4` retires the instruction at 4 (x1 becomes 5). -/
theorem runUntil_vs_run_witness :
    c10Core.runLoop 3 = c10Core ∧
    (Core.runUntilAddress 4 { c10Core with stopAddrValid := false } 3).intRead 1 = 5 := by
  have h1 := (runUntil_vs_run c10Core 4 2 (by decide)).1 (by decide) (by decide)
    (by decide)
  have h2 := (runUntil_vs_run { c10Core with stopAddrValid := false } 4 2
    (by decide)).2.1 (by decide)
  refine ⟨h1, ?_⟩
  rw [h2]
  decide

/-! ## C7: compressed-expansion agreement — field extraction lemmas -/

theorem bits_lt (v lo len : Nat) : bits v lo len < 2 ^ len :=
  Nat.mod_lt _ (by positivity)

theorem bit_lt (v i : Nat) : bit v i < 2 := Nat.mod_lt _ (by norm_num)

theorem bits_encodeI (imm12 rs1 f3 rd op : Nat)
    (h1 : imm12 < 4096) (h2 : rs1 < 32) (h3 : f3 < 8) (h4 : rd < 32) (h5 : op < 128) :
    bits (encodeI imm12 rs1 f3 rd op) 0 7 = op ∧
    bits (encodeI imm12 rs1 f3 rd op) 7 5 = rd ∧
    bits (encodeI imm12 rs1 f3 rd op) 12 3 = f3 ∧
    bits (encodeI imm12 rs1 f3 rd op) 15 5 = rs1 ∧
    bits (encodeI imm12 rs1 f3 rd op) 20 12 = imm12 ∧
    bits (encodeI imm12 rs1 f3 rd op) 20 5 = imm12 % 32 ∧
    bits (encodeI imm12 rs1 f3 rd op) 25 7 = imm12 / 32 := by
  unfold bits encodeI
  refine ⟨?_, ?_, ?_, ?_, ?_, ?_, ?_⟩ <;> omega

theorem bits_encodeR (f7 rs2 rs1 f3 rd op : Nat)
    (h1 : f7 < 128) (h2 : rs2 < 32) (h3 : rs1 < 32) (h4 : f3 < 8) (h5 : rd < 32)
    (h6 : op < 128) :
    bits (encodeR f7 rs2 rs1 f3 rd op) 0 7 = op ∧
    bits (encodeR f7 rs2 rs1 f3 rd op) 7 5 = rd ∧
    bits (encodeR f7 rs2 rs1 f3 rd op) 12 3 = f3 ∧
    bits (encodeR f7 rs2 rs1 f3 rd op) 15 5 = rs1 ∧
    bits (encodeR f7 rs2 rs1 f3 rd op) 20 5 = rs2 ∧
    bits (encodeR f7 rs2 rs1 f3 rd op) 25 7 = f7 := by
  unfold bits encodeR
  refine ⟨?_, ?_, ?_, ?_, ?_, ?_⟩ <;> omega

theorem bits_of_shape (W A B C k w : Nat) (hW : W = A + B * 2 ^ k + C * 2 ^ (k + w))
    (hA : A < 2 ^ k) (hB : B < 2 ^ w) : bits W k w = B := by
  unfold bits
  rw [hW]
  exact extract_field A B C k w hA hB

theorem bit_of_shape (W A B C k : Nat) (hW : W = A + B * 2 ^ k + C * 2 ^ (k + 1))
    (hA : A < 2 ^ k) (hB : B < 2) : bit W k = B := by
  have h := bits_of_shape W A B C k 1 hW hA (by omega)
  unfold bits at h
  unfold bit
  omega

theorem bits_encodeS (imm12 rs2 rs1 f3 op : Nat)
    (h1 : imm12 < 4096) (h2 : rs2 < 32) (h3 : rs1 < 32) (h4 : f3 < 8) (h5 : op < 128) :
    bits (encodeS imm12 rs2 rs1 f3 op) 0 7 = op ∧
    bits (encodeS imm12 rs2 rs1 f3 op) 12 3 = f3 ∧
    bits (encodeS imm12 rs2 rs1 f3 op) 15 5 = rs1 ∧
    bits (encodeS imm12 rs2 rs1 f3 op) 20 5 = rs2 ∧
    sImm (encodeS imm12 rs2 rs1 f3 op) = toSigned 12 imm12 := by
  obtain ⟨hi, lo, hhi, hlo, heq, ehi, elo⟩ :
      ∃ hi lo, hi < 128 ∧ lo < 32 ∧ imm12 = hi * 32 + lo
        ∧ imm12 / 32 = hi ∧ imm12 % 32 = lo :=
    ⟨imm12 / 32, imm12 % 32, by omega, by omega, by omega, rfl, rfl⟩
  unfold encodeS
  rw [ehi, elo]
  refine ⟨?_, ?_, ?_, ?_, ?_⟩
  · exact bits_of_shape _ 0 op
      (hi * 2 ^ 18 + rs2 * 2 ^ 13 + rs1 * 2 ^ 8 + f3 * 2 ^ 5 + lo) 0 7
      (by ring) (by omega) (by omega)
  · exact bits_of_shape _ (lo * 2 ^ 7 + op) f3
      (hi * 2 ^ 10 + rs2 * 2 ^ 5 + rs1) 12 3 (by ring) (by omega) (by omega)
  · exact bits_of_shape _ (f3 * 2 ^ 12 + lo * 2 ^ 7 + op) rs1
      (hi * 2 ^ 5 + rs2) 15 5 (by ring) (by omega) (by omega)
  · exact bits_of_shape _ (rs1 * 2 ^ 15 + f3 * 2 ^ 12 + lo * 2 ^ 7 + op) rs2 hi
      20 5 (by ring) (by omega) (by omega)
  · unfold sImm
    rw [bits_of_shape _ (rs2 * 2 ^ 20 + rs1 * 2 ^ 15 + f3 * 2 ^ 12 + lo * 2 ^ 7 + op)
        hi 0 25 7 (by ring) (by omega) (by omega),
      bits_of_shape _ op lo
        (hi * 2 ^ 13 + rs2 * 2 ^ 8 + rs1 * 2 ^ 3 + f3) 7 5 (by ring) (by omega)
        (by omega)]
    congr 1
    omega

theorem bits_encodeU (imm20 rd op : Nat)
    (h1 : imm20 < 2 ^ 20) (h2 : rd < 32) (h3 : op < 128) :
    bits (encodeU imm20 rd op) 0 7 = op ∧
    bits (encodeU imm20 rd op) 7 5 = rd ∧
    uImm (encodeU imm20 rd op) = toSigned 20 imm20 := by
  unfold encodeU
  refine ⟨?_, ?_, ?_⟩
  · exact bits_of_shape _ 0 op (imm20 * 2 ^ 5 + rd) 0 7 (by ring) (by omega) (by omega)
  · exact bits_of_shape _ op rd imm20 7 5 (by ring) (by omega) (by omega)
  · unfold uImm
    rw [bits_of_shape _ (rd * 2 ^ 7 + op) imm20 0 12 20 (by ring) (by omega) h1]

theorem bits_encodeJ (imm21 rd op : Nat)
    (h1 : imm21 < 2 ^ 21) (h2 : rd < 32) (h3 : op < 128) :
    bits (encodeJ imm21 rd op) 0 7 = op ∧
    bits (encodeJ imm21 rd op) 7 5 = rd ∧
    jImm (encodeJ imm21 rd op) = toSigned 21 (imm21 / 2 * 2) := by
  obtain ⟨b20, f10, b11, f8, b0, hb20, hf10, hb11, hf8, hb0, heq, e20, e110, e11, e128⟩ :
      ∃ b20 f10 b11 f8 b0, b20 < 2 ∧ f10 < 2 ^ 10 ∧ b11 < 2 ∧ f8 < 2 ^ 8 ∧ b0 < 2 ∧
        imm21 = b20 * 2 ^ 20 + f8 * 2 ^ 12 + b11 * 2 ^ 11 + f10 * 2 + b0 ∧
        bit imm21 20 = b20 ∧ bits imm21 1 10 = f10 ∧ bit imm21 11 = b11 ∧
        bits imm21 12 8 = f8 := by
    refine ⟨bit imm21 20, bits imm21 1 10, bit imm21 11, bits imm21 12 8, imm21 % 2,
      bit_lt _ _, bits_lt _ _ _, bit_lt _ _, bits_lt _ _ _, by omega, ?_,
      rfl, rfl, rfl, rfl⟩
    unfold bit bits
    omega
  unfold encodeJ
  rw [e20, e110, e11, e128]
  refine ⟨?_, ?_, ?_⟩
  · exact bits_of_shape _ 0 op
      (b20 * 2 ^ 24 + f10 * 2 ^ 14 + b11 * 2 ^ 13 + f8 * 2 ^ 5 + rd) 0 7
      (by ring) (by omega) (by omega)
  · exact bits_of_shape _ op rd
      (b20 * 2 ^ 19 + f10 * 2 ^ 9 + b11 * 2 ^ 8 + f8) 7 5 (by ring) (by omega)
      (by omega)
  · unfold jImm
    rw [bit_of_shape _ (f10 * 2 ^ 21 + b11 * 2 ^ 20 + f8 * 2 ^ 12 + rd * 2 ^ 7 + op)
        b20 0 31 (by ring) (by omega) hb20,
      bits_of_shape _ (rd * 2 ^ 7 + op) f8 (b20 * 2 ^ 11 + f10 * 2 + b11) 12 8
        (by ring) (by omega) hf8,
      bit_of_shape _ (f8 * 2 ^ 12 + rd * 2 ^ 7 + op) b11 (b20 * 2 ^ 10 + f10) 20
        (by ring) (by omega) hb11,
      bits_of_shape _ (b11 * 2 ^ 20 + f8 * 2 ^ 12 + rd * 2 ^ 7 + op) f10 b20 21 10
        (by ring) (by omega) hf10]
    congr 1
    omega

theorem bits_encodeB (imm13 rs2 rs1 f3 op : Nat)
    (h1 : imm13 < 2 ^ 13) (h2 : rs2 < 32) (h3 : rs1 < 32) (h4 : f3 < 8) (h5 : op < 128) :
    bits (encodeB imm13 rs2 rs1 f3 op) 0 7 = op ∧
    bits (encodeB imm13 rs2 rs1 f3 op) 12 3 = f3 ∧
    bits (encodeB imm13 rs2 rs1 f3 op) 15 5 = rs1 ∧
    bits (encodeB imm13 rs2 rs1 f3 op) 20 5 = rs2 ∧
    bImm (encodeB imm13 rs2 rs1 f3 op) = toSigned 13 (imm13 / 2 * 2) := by
  obtain ⟨b12, b11, f6, f4, b0, hb12, hb11, hf6, hf4, hb0, heq, e12, e11, e56, e14⟩ :
      ∃ b12 b11 f6 f4 b0, b12 < 2 ∧ b11 < 2 ∧ f6 < 2 ^ 6 ∧ f4 < 2 ^ 4 ∧ b0 < 2 ∧
        imm13 = b12 * 2 ^ 12 + b11 * 2 ^ 11 + f6 * 2 ^ 5 + f4 * 2 + b0 ∧
        bit imm13 12 = b12 ∧ bit imm13 11 = b11 ∧ bits imm13 5 6 = f6 ∧
        bits imm13 1 4 = f4 := by
    refine ⟨bit imm13 12, bit imm13 11, bits imm13 5 6, bits imm13 1 4, imm13 % 2,
      bit_lt _ _, bit_lt _ _, bits_lt _ _ _, bits_lt _ _ _, by omega, ?_,
      rfl, rfl, rfl, rfl⟩
    unfold bit bits
    omega
  unfold encodeB
  rw [e12, e11, e56, e14]
  refine ⟨?_, ?_, ?_, ?_, ?_⟩
  · exact bits_of_shape _ 0 op
      (b12 * 2 ^ 24 + f6 * 2 ^ 18 + rs2 * 2 ^ 13 + rs1 * 2 ^ 8 + f3 * 2 ^ 5
        + f4 * 2 + b11) 0 7 (by ring) (by omega) (by omega)
  · exact bits_of_shape _ (f4 * 2 ^ 8 + b11 * 2 ^ 7 + op) f3
      (b12 * 2 ^ 16 + f6 * 2 ^ 10 + rs2 * 2 ^ 5 + rs1) 12 3 (by ring) (by omega)
      (by omega)
  · exact bits_of_shape _ (f3 * 2 ^ 12 + f4 * 2 ^ 8 + b11 * 2 ^ 7 + op) rs1
      (b12 * 2 ^ 11 + f6 * 2 ^ 5 + rs2) 15 5 (by ring) (by omega) (by omega)
  · exact bits_of_shape _ (rs1 * 2 ^ 15 + f3 * 2 ^ 12 + f4 * 2 ^ 8 + b11 * 2 ^ 7 + op)
      rs2 (b12 * 2 ^ 6 + f6) 20 5 (by ring) (by omega) (by omega)
  · unfold bImm
    rw [bit_of_shape _ (f6 * 2 ^ 25 + rs2 * 2 ^ 20 + rs1 * 2 ^ 15 + f3 * 2 ^ 12
          + f4 * 2 ^ 8 + b11 * 2 ^ 7 + op) b12 0 31 (by ring) (by omega) hb12,
      bit_of_shape _ op b11
        (b12 * 2 ^ 23 + f6 * 2 ^ 17 + rs2 * 2 ^ 12 + rs1 * 2 ^ 7 + f3 * 2 ^ 4 + f4) 7
        (by ring) (by omega) hb11,
      bits_of_shape _ (rs2 * 2 ^ 20 + rs1 * 2 ^ 15 + f3 * 2 ^ 12 + f4 * 2 ^ 8
          + b11 * 2 ^ 7 + op) f6 b12 25 6 (by ring) (by omega) hf6,
      bits_of_shape _ (b11 * 2 ^ 7 + op) f4
        (b12 * 2 ^ 19 + f6 * 2 ^ 13 + rs2 * 2 ^ 8 + rs1 * 2 ^ 3 + f3) 8 4
        (by ring) (by omega) hf4]
    congr 1
    omega

/-! ## C7: decoding each expanded 32-bit form -/

theorem decode32_addi (imm12 rs1 rd : Nat) (h1 : imm12 < 4096) (h2 : rs1 < 32)
    (h4 : rd < 32) :
    decode32 false (encodeI imm12 rs1 0 rd 0x13)
      = .alui .addi rd rs1 (toSigned 12 imm12) := by
  obtain ⟨hop, hrd, hf3, hrs1, himm, -, -⟩ :=
    bits_encodeI imm12 rs1 0 rd 0x13 h1 h2 (by omega) h4 (by omega)
  simp only [decode32, hop, hrd, hf3, hrs1, decodeOpImm, iImm, himm]

theorem decode32_andi (imm12 rs1 rd : Nat) (h1 : imm12 < 4096) (h2 : rs1 < 32)
    (h4 : rd < 32) :
    decode32 false (encodeI imm12 rs1 7 rd 0x13)
      = .alui .andi rd rs1 (toSigned 12 imm12) := by
  obtain ⟨hop, hrd, hf3, hrs1, himm, -, -⟩ :=
    bits_encodeI imm12 rs1 7 rd 0x13 h1 h2 (by omega) h4 (by omega)
  simp only [decode32, hop, hrd, hf3, hrs1, decodeOpImm, iImm, himm]

theorem decode32_slli (shamt rs1 rd : Nat) (h1 : shamt < 32) (h2 : rs1 < 32)
    (h4 : rd < 32) :
    decode32 false (encodeI shamt rs1 1 rd 0x13) = .shifti .slli rd rs1 shamt := by
  obtain ⟨hop, hrd, hf3, hrs1, -, hsh, htop⟩ :=
    bits_encodeI shamt rs1 1 rd 0x13 (by omega) h2 (by omega) h4 (by omega)
  have hsh' : bits (encodeI shamt rs1 1 rd 0x13) 20 5 = shamt := by omega
  have htop' : bits (encodeI shamt rs1 1 rd 0x13) 25 7 = 0 := by omega
  simp only [decode32, hop, hrd, hf3, hrs1, decodeOpImm, hsh', htop']
  simp

theorem decode32_srli (shamt rs1 rd : Nat) (h1 : shamt < 32) (h2 : rs1 < 32)
    (h4 : rd < 32) :
    decode32 false (encodeI shamt rs1 5 rd 0x13) = .shifti .srli rd rs1 shamt := by
  obtain ⟨hop, hrd, hf3, hrs1, -, hsh, htop⟩ :=
    bits_encodeI shamt rs1 5 rd 0x13 (by omega) h2 (by omega) h4 (by omega)
  have hsh' : bits (encodeI shamt rs1 5 rd 0x13) 20 5 = shamt := by omega
  have htop' : bits (encodeI shamt rs1 5 rd 0x13) 25 7 = 0 := by omega
  simp only [decode32, hop, hrd, hf3, hrs1, decodeOpImm, hsh', htop']
  simp

theorem decode32_srai (shamt rs1 rd : Nat) (h1 : shamt < 32) (h2 : rs1 < 32)
    (h4 : rd < 32) :
    decode32 false (encodeI (1024 + shamt) rs1 5 rd 0x13)
      = .shifti .srai rd rs1 shamt := by
  obtain ⟨hop, hrd, hf3, hrs1, -, hsh, htop⟩ :=
    bits_encodeI (1024 + shamt) rs1 5 rd 0x13 (by omega) h2 (by omega) h4 (by omega)
  have hsh' : bits (encodeI (1024 + shamt) rs1 5 rd 0x13) 20 5 = shamt := by omega
  have htop' : bits (encodeI (1024 + shamt) rs1 5 rd 0x13) 25 7 = 0x20 := by omega
  simp only [decode32, hop, hrd, hf3, hrs1, decodeOpImm, hsh', htop']
  norm_num

theorem decode32_lw (imm12 rs1 rd : Nat) (h1 : imm12 < 4096) (h2 : rs1 < 32)
    (h4 : rd < 32) :
    decode32 false (encodeI imm12 rs1 2 rd 0x03)
      = .load .lw rd rs1 (toSigned 12 imm12) := by
  obtain ⟨hop, hrd, hf3, hrs1, himm, -, -⟩ :=
    bits_encodeI imm12 rs1 2 rd 0x03 h1 h2 (by omega) h4 (by omega)
  simp only [decode32, hop, hrd, hf3, hrs1, decodeLoad, iImm, himm]

theorem decode32_jalr (rs1 rd : Nat) (h2 : rs1 < 32) (h4 : rd < 32) :
    decode32 false (encodeI 0 rs1 0 rd 0x67) = .jalr rd rs1 0 := by
  obtain ⟨hop, hrd, hf3, hrs1, himm, -, -⟩ :=
    bits_encodeI 0 rs1 0 rd 0x67 (by omega) h2 (by omega) h4 (by omega)
  simp only [decode32, hop, hrd, hf3, hrs1, if_pos rfl, iImm, himm, toSigned_zero]
  simp

theorem decode32_sw (imm12 rs2 rs1 : Nat) (h1 : imm12 < 4096) (h2 : rs2 < 32)
    (h3 : rs1 < 32) :
    decode32 false (encodeS imm12 rs2 rs1 2 0x23)
      = .store .sw rs1 rs2 (toSigned 12 imm12) := by
  obtain ⟨hop, hf3, hrs1, hrs2, himm⟩ :=
    bits_encodeS imm12 rs2 rs1 2 0x23 h1 h2 h3 (by omega) (by omega)
  simp only [decode32, hop, hf3, hrs1, hrs2, decodeStore, himm]

theorem decode32_lui (imm20 rd : Nat) (h1 : imm20 < 2 ^ 20) (h4 : rd < 32) :
    decode32 false (encodeU imm20 rd 0x37) = .lui rd (toSigned 20 imm20) := by
  obtain ⟨hop, hrd, himm⟩ := bits_encodeU imm20 rd 0x37 h1 h4 (by omega)
  simp only [decode32, hop, hrd, himm]

theorem decode32_jal (imm21 rd : Nat) (h1 : imm21 < 2 ^ 21) (h4 : rd < 32) :
    decode32 false (encodeJ imm21 rd 0x6F)
      = .jal rd (toSigned 21 (imm21 / 2 * 2)) := by
  obtain ⟨hop, hrd, himm⟩ := bits_encodeJ imm21 rd 0x6F h1 h4 (by omega)
  simp only [decode32, hop, hrd, himm]

theorem decode32_beq (imm13 rs2 rs1 : Nat) (h1 : imm13 < 2 ^ 13) (h2 : rs2 < 32)
    (h3 : rs1 < 32) :
    decode32 false (encodeB imm13 rs2 rs1 0 0x63)
      = .branch .beq rs1 rs2 (toSigned 13 (imm13 / 2 * 2)) := by
  obtain ⟨hop, hf3, hrs1, hrs2, himm⟩ :=
    bits_encodeB imm13 rs2 rs1 0 0x63 h1 h2 h3 (by omega) (by omega)
  simp only [decode32, hop, hf3, hrs1, hrs2, decodeBranch, himm]

theorem decode32_bne (imm13 rs2 rs1 : Nat) (h1 : imm13 < 2 ^ 13) (h2 : rs2 < 32)
    (h3 : rs1 < 32) :
    decode32 false (encodeB imm13 rs2 rs1 1 0x63)
      = .branch .bne rs1 rs2 (toSigned 13 (imm13 / 2 * 2)) := by
  obtain ⟨hop, hf3, hrs1, hrs2, himm⟩ :=
    bits_encodeB imm13 rs2 rs1 1 0x63 h1 h2 h3 (by omega) (by omega)
  simp only [decode32, hop, hf3, hrs1, hrs2, decodeBranch, himm]

theorem decode32_encR (f7 f3 rs2 rs1 rd : Nat) (h1 : f7 < 128) (h2 : rs2 < 32)
    (h3 : rs1 < 32) (hf : f3 < 8) (h4 : rd < 32) :
    decode32 false (encodeR f7 rs2 rs1 f3 rd 0x33) = decodeOp f7 f3 rd rs1 rs2 := by
  obtain ⟨hop, hrd, hf3, hrs1, hrs2, hf7⟩ :=
    bits_encodeR f7 rs2 rs1 f3 rd 0x33 h1 h2 h3 hf h4 (by omega)
  simp only [decode32, hop, hrd, hf3, hrs1, hrs2, hf7]

/-! ## C7: compressed field ranges and parity -/

theorem toSigned_of_lt (w v : Nat) (h : v < 2 ^ (w - 1)) : toSigned w v = v := by
  unfold toSigned
  rw [if_pos h]

theorem ciw4spn_lt (c : Nat) : ciw4spn c < 1024 := by
  unfold ciw4spn
  have := bits_lt c 11 2
  have := bits_lt c 7 4
  have := bit_lt c 6
  have := bit_lt c 5
  omega

theorem clwOffset_lt (c : Nat) : clwOffset c < 128 := by
  unfold clwOffset
  have := bits_lt c 10 3
  have := bit_lt c 6
  have := bit_lt c 5
  omega

theorem clwspOffset_lt (c : Nat) : clwspOffset c < 256 := by
  unfold clwspOffset
  have := bit_lt c 12
  have := bits_lt c 4 3
  have := bits_lt c 2 2
  omega

theorem cswspOffset_lt (c : Nat) : cswspOffset c < 256 := by
  unfold cswspOffset
  have := bits_lt c 9 4
  have := bits_lt c 7 2
  omega

theorem ciImm_range (c : Nat) : -32 ≤ ciImm c ∧ ciImm c < 32 := by
  unfold ciImm
  constructor
  · have h := toSigned_nonneg_bound 6 (bit c 12 * 32 + bits c 2 5)
    norm_num at h
    exact h
  · have h := toSigned_lt 6 (bit c 12 * 32 + bits c 2 5)
      (by have := bit_lt c 12; have := bits_lt c 2 5; norm_num; omega)
    norm_num at h
    exact h

theorem ci16spImm_range (c : Nat) : -512 ≤ ci16spImm c ∧ ci16spImm c < 512 := by
  unfold ci16spImm
  constructor
  · have h := toSigned_nonneg_bound 10
      (bit c 12 * 2 ^ 9 + bit c 6 * 2 ^ 4 + bit c 5 * 2 ^ 6 + bits c 3 2 * 2 ^ 7
        + bit c 2 * 2 ^ 5)
    norm_num at h
    exact h
  · have h := toSigned_lt 10
      (bit c 12 * 2 ^ 9 + bit c 6 * 2 ^ 4 + bit c 5 * 2 ^ 6 + bits c 3 2 * 2 ^ 7
        + bit c 2 * 2 ^ 5)
      (by
        have := bit_lt c 12
        have := bit_lt c 6
        have := bit_lt c 5
        have := bits_lt c 3 2
        have := bit_lt c 2
        norm_num
        omega)
    norm_num at h
    exact h

theorem cjOffset_range (c : Nat) :
    -2048 ≤ cjOffset c ∧ cjOffset c < 2048 ∧ cjOffset c % 2 = 0 := by
  unfold cjOffset
  refine ⟨?_, ?_, ?_⟩
  · have h := toSigned_nonneg_bound 12
      (bit c 12 * 2 ^ 11 + bit c 11 * 2 ^ 4 + bit c 10 * 2 ^ 9 + bit c 9 * 2 ^ 8
        + bit c 8 * 2 ^ 10 + bit c 7 * 2 ^ 6 + bit c 6 * 2 ^ 7 + bit c 5 * 2 ^ 3
        + bit c 4 * 2 ^ 2 + bit c 3 * 2 + bit c 2 * 2 ^ 5)
    norm_num at h
    exact h
  · have h := toSigned_lt 12
      (bit c 12 * 2 ^ 11 + bit c 11 * 2 ^ 4 + bit c 10 * 2 ^ 9 + bit c 9 * 2 ^ 8
        + bit c 8 * 2 ^ 10 + bit c 7 * 2 ^ 6 + bit c 6 * 2 ^ 7 + bit c 5 * 2 ^ 3
        + bit c 4 * 2 ^ 2 + bit c 3 * 2 + bit c 2 * 2 ^ 5)
      (by
        have := bit_lt c 12
        have := bit_lt c 11
        have := bit_lt c 10
        have := bit_lt c 9
        have := bit_lt c 8
        have := bit_lt c 7
        have := bit_lt c 6
        have := bit_lt c 5
        have := bit_lt c 4
        have := bit_lt c 3
        have := bit_lt c 2
        norm_num
        omega)
    norm_num at h
    exact h
  · unfold toSigned
    split <;> norm_num <;> omega

theorem cbOffset_range (c : Nat) :
    -256 ≤ cbOffset c ∧ cbOffset c < 256 ∧ cbOffset c % 2 = 0 := by
  unfold cbOffset
  refine ⟨?_, ?_, ?_⟩
  · have h := toSigned_nonneg_bound 9
      (bit c 12 * 2 ^ 8 + bit c 11 * 2 ^ 4 + bit c 10 * 2 ^ 3 + bit c 6 * 2 ^ 7
        + bit c 5 * 2 ^ 6 + bit c 4 * 2 ^ 2 + bit c 3 * 2 + bit c 2 * 2 ^ 5)
    norm_num at h
    exact h
  · have h := toSigned_lt 9
      (bit c 12 * 2 ^ 8 + bit c 11 * 2 ^ 4 + bit c 10 * 2 ^ 3 + bit c 6 * 2 ^ 7
        + bit c 5 * 2 ^ 6 + bit c 4 * 2 ^ 2 + bit c 3 * 2 + bit c 2 * 2 ^ 5)
      (by
        have := bit_lt c 12
        have := bit_lt c 11
        have := bit_lt c 10
        have := bit_lt c 6
        have := bit_lt c 5
        have := bit_lt c 4
        have := bit_lt c 3
        have := bit_lt c 2
        norm_num
        omega)
    norm_num at h
    exact h
  · unfold toSigned
    split <;> norm_num <;> omega

theorem toURV_even (w : Nat) (i : Int) (hw : 1 ≤ w) (h : i % 2 = 0) :
    toURV w i % 2 = 0 := by
  unfold toURV
  have hdvd : (2 : Int) ∣ ((2 ^ w : Nat) : Int) := by
    have hsp : (2 ^ w : Nat) = 2 ^ (w - 1) * 2 := pow_split w hw
    rw [hsp]
    push_cast
    exact Dvd.intro (2 ^ (w - 1)) (by ring)
  have hm := Int.emod_emod_of_dvd i hdvd
  have hnn : 0 ≤ i % ((2 ^ w : Nat) : Int) :=
    Int.emod_nonneg _ (by positivity)
  omega

/-! ## C7: round-trip helpers at the widths used by the expander -/

theorem ts12 (i : Int) (h1 : -2048 ≤ i) (h2 : i < 2048) :
    toSigned 12 (toURV 12 i) = i :=
  toSigned_toURV 12 i (by norm_num) (by norm_num; omega) (by norm_num; omega)

theorem ts13 (i : Int) (h1 : -4096 ≤ i) (h2 : i < 4096) :
    toSigned 13 (toURV 13 i) = i :=
  toSigned_toURV 13 i (by norm_num) (by norm_num; omega) (by norm_num; omega)

theorem ts20 (i : Int) (h1 : -524288 ≤ i) (h2 : i < 524288) :
    toSigned 20 (toURV 20 i) = i :=
  toSigned_toURV 20 i (by norm_num) (by norm_num; omega) (by norm_num; omega)

theorem ts21 (i : Int) (h1 : -1048576 ≤ i) (h2 : i < 1048576) :
    toSigned 21 (toURV 21 i) = i :=
  toSigned_toURV 21 i (by norm_num) (by norm_num; omega) (by norm_num; omega)

theorem even_div_two_mul_two (n : Nat) (h : n % 2 = 0) : n / 2 * 2 = n := by omega

set_option maxHeartbeats 3200000 in
/-- The expansion of every 16-bit code, decoded by the 32-bit decoder,
agrees with the direct compressed decoder — including agreement of the
failure cases. -/
theorem expand_decode_agree (c16 : Nat) :
    (expandInst c16).map (decode32 false) = decodeC16 c16 := by
  have hrdp : 8 + bits c16 7 3 < 32 := by have := bits_lt c16 7 3; norm_num at this; omega
  have hrs2p : 8 + bits c16 2 3 < 32 := by have := bits_lt c16 2 3; norm_num at this; omega
  have hrdf : bits c16 7 5 < 32 := by have := bits_lt c16 7 5; norm_num at this; omega
  have hrs2f : bits c16 2 5 < 32 := by have := bits_lt c16 2 5; norm_num at this; omega
  have hq4 : bits c16 0 2 < 4 := by have := bits_lt c16 0 2; norm_num at this; omega
  have hf8 : bits c16 13 3 < 8 := by have := bits_lt c16 13 3; norm_num at this; omega
  rcases (by omega :
      bits c16 0 2 = 0 ∨ bits c16 0 2 = 1 ∨ bits c16 0 2 = 2 ∨ bits c16 0 2 = 3)
    with hq | hq | hq | hq
  · -- quadrant 0
    rcases (by omega : bits c16 13 3 = 0 ∨ bits c16 13 3 = 1 ∨ bits c16 13 3 = 2 ∨
        bits c16 13 3 = 3 ∨ bits c16 13 3 = 4 ∨ bits c16 13 3 = 5 ∨
        bits c16 13 3 = 6 ∨ bits c16 13 3 = 7)
      with hf | hf | hf | hf | hf | hf | hf | hf
    · -- C.ADDI4SPN
      simp only [expandInst, decodeC16, hq, hf]
      by_cases hz : ciw4spn c16 = 0
      · simp [hz]
      · simp only [if_neg hz, Option.map]
        rw [decode32_addi _ _ _ (by have := ciw4spn_lt c16; omega) (by norm_num) hrs2p]
        rw [toSigned_of_lt 12 _ (by have := ciw4spn_lt c16; norm_num; omega)]
    · simp only [expandInst, decodeC16, hq, hf]; rfl
    · -- C.LW
      simp only [expandInst, decodeC16, hq, hf, Option.map]
      rw [decode32_lw _ _ _ (by have := clwOffset_lt c16; omega) hrdp hrs2p]
      rw [toSigned_of_lt 12 _ (by have := clwOffset_lt c16; norm_num; omega)]
    · simp only [expandInst, decodeC16, hq, hf]; rfl
    · simp only [expandInst, decodeC16, hq, hf]; rfl
    · simp only [expandInst, decodeC16, hq, hf]; rfl
    · -- C.SW
      simp only [expandInst, decodeC16, hq, hf, Option.map]
      rw [decode32_sw _ _ _ (by have := clwOffset_lt c16; omega) hrs2p hrdp]
      rw [toSigned_of_lt 12 _ (by have := clwOffset_lt c16; norm_num; omega)]
    · simp only [expandInst, decodeC16, hq, hf]; rfl
  · -- quadrant 1
    rcases (by omega : bits c16 13 3 = 0 ∨ bits c16 13 3 = 1 ∨ bits c16 13 3 = 2 ∨
        bits c16 13 3 = 3 ∨ bits c16 13 3 = 4 ∨ bits c16 13 3 = 5 ∨
        bits c16 13 3 = 6 ∨ bits c16 13 3 = 7)
      with hf | hf | hf | hf | hf | hf | hf | hf
    · -- C.ADDI
      simp only [expandInst, decodeC16, hq, hf, Option.map]
      rw [decode32_addi _ _ _ (toURV_lt 12 _) hrdf hrdf]
      rw [ts12 _ (by have := ciImm_range c16; omega) (by have := ciImm_range c16; omega)]
    · -- C.JAL
      simp only [expandInst, decodeC16, hq, hf, Option.map]
      rw [decode32_jal _ _ (toURV_lt 21 _) (by norm_num)]
      rw [even_div_two_mul_two _ (toURV_even 21 _ (by norm_num) (cjOffset_range c16).2.2)]
      rw [ts21 _ (by have := cjOffset_range c16; omega)
        (by have := cjOffset_range c16; omega)]
    · -- C.LI
      simp only [expandInst, decodeC16, hq, hf, Option.map]
      rw [decode32_addi _ _ _ (toURV_lt 12 _) (by norm_num) hrdf]
      rw [ts12 _ (by have := ciImm_range c16; omega) (by have := ciImm_range c16; omega)]
    · -- C.ADDI16SP / C.LUI
      simp only [expandInst, decodeC16, hq, hf]
      by_cases h2 : bits c16 7 5 = 2
      · simp only [if_pos h2]
        by_cases hz : ci16spImm c16 = 0
        · simp [hz]
        · simp only [if_neg hz, Option.map]
          rw [decode32_addi _ _ _ (toURV_lt 12 _) (by norm_num) (by norm_num)]
          rw [ts12 _ (by have := ci16spImm_range c16; omega)
            (by have := ci16spImm_range c16; omega)]
      · simp only [if_neg h2]
        by_cases hz : ciImm c16 = 0
        · simp [hz]
        · simp only [if_neg hz, Option.map]
          rw [decode32_lui _ _ (toURV_lt 20 _) hrdf]
          rw [ts20 _ (by have := ciImm_range c16; omega)
            (by have := ciImm_range c16; omega)]
    · -- misc-alu row
      have hb4 : bits c16 10 2 < 4 := by have := bits_lt c16 10 2; norm_num at this; omega
      rcases (by omega : bits c16 10 2 = 0 ∨ bits c16 10 2 = 1 ∨ bits c16 10 2 = 2 ∨
          bits c16 10 2 = 3) with hb | hb | hb | hb
      · -- C.SRLI
        simp only [expandInst, decodeC16, hq, hf, hb]
        by_cases h12 : bit c16 12 = 1
        · simp [h12]
        · simp only [if_neg h12, Option.map]
          rw [decode32_srli _ _ _ hrs2f hrdp hrdp]
      · -- C.SRAI
        simp only [expandInst, decodeC16, hq, hf, hb]
        by_cases h12 : bit c16 12 = 1
        · simp [h12]
        · simp only [if_neg h12, Option.map]
          rw [decode32_srai _ _ _ hrs2f hrdp hrdp]
      · -- C.ANDI
        simp only [expandInst, decodeC16, hq, hf, hb, Option.map]
        rw [decode32_andi _ _ _ (toURV_lt 12 _) hrdp hrdp]
        rw [ts12 _ (by have := ciImm_range c16; omega)
          (by have := ciImm_range c16; omega)]
      · -- C.SUB / C.XOR / C.OR / C.AND
        simp only [expandInst, decodeC16, hq, hf, hb]
        by_cases h12 : bit c16 12 = 1
        · simp [h12]
        · simp only [if_neg h12]
          have hs4 : bits c16 5 2 < 4 := by
            have := bits_lt c16 5 2; norm_num at this; omega
          rcases (by omega : bits c16 5 2 = 0 ∨ bits c16 5 2 = 1 ∨ bits c16 5 2 = 2 ∨
              bits c16 5 2 = 3) with hs | hs | hs | hs <;>
            simp only [hs, Option.map] <;>
            rw [decode32_encR _ _ _ _ _ (by norm_num) hrs2p hrdp (by norm_num) hrdp] <;>
            simp only [decodeOp]
    · -- C.J
      simp only [expandInst, decodeC16, hq, hf, Option.map]
      rw [decode32_jal _ _ (toURV_lt 21 _) (by norm_num)]
      rw [even_div_two_mul_two _ (toURV_even 21 _ (by norm_num) (cjOffset_range c16).2.2)]
      rw [ts21 _ (by have := cjOffset_range c16; omega)
        (by have := cjOffset_range c16; omega)]
    · -- C.BEQZ
      simp only [expandInst, decodeC16, hq, hf, Option.map]
      rw [decode32_beq _ _ _ (toURV_lt 13 _) (by norm_num) hrdp]
      rw [even_div_two_mul_two _ (toURV_even 13 _ (by norm_num) (cbOffset_range c16).2.2)]
      rw [ts13 _ (by have := cbOffset_range c16; omega)
        (by have := cbOffset_range c16; omega)]
    · -- C.BNEZ
      simp only [expandInst, decodeC16, hq, hf, Option.map]
      rw [decode32_bne _ _ _ (toURV_lt 13 _) (by norm_num) hrdp]
      rw [even_div_two_mul_two _ (toURV_even 13 _ (by norm_num) (cbOffset_range c16).2.2)]
      rw [ts13 _ (by have := cbOffset_range c16; omega)
        (by have := cbOffset_range c16; omega)]
  · -- quadrant 2
    rcases (by omega : bits c16 13 3 = 0 ∨ bits c16 13 3 = 1 ∨ bits c16 13 3 = 2 ∨
        bits c16 13 3 = 3 ∨ bits c16 13 3 = 4 ∨ bits c16 13 3 = 5 ∨
        bits c16 13 3 = 6 ∨ bits c16 13 3 = 7)
      with hf | hf | hf | hf | hf | hf | hf | hf
    · -- C.SLLI
      simp only [expandInst, decodeC16, hq, hf]
      by_cases h12 : bit c16 12 = 1
      · simp [h12]
      · simp only [if_neg h12, Option.map]
        rw [decode32_slli _ _ _ hrs2f hrdf hrdf]
    · simp only [expandInst, decodeC16, hq, hf]; rfl
    · -- C.LWSP
      simp only [expandInst, decodeC16, hq, hf]
      by_cases hz : bits c16 7 5 = 0
      · simp [hz]
      · simp only [if_neg hz, Option.map]
        rw [decode32_lw _ _ _ (by have := clwspOffset_lt c16; omega) (by norm_num) hrdf]
        rw [toSigned_of_lt 12 _ (by have := clwspOffset_lt c16; norm_num; omega)]
    · simp only [expandInst, decodeC16, hq, hf]; rfl
    · -- C.JR / C.MV / C.EBREAK / C.JALR / C.ADD
      simp only [expandInst, decodeC16, hq, hf]
      by_cases h12 : bit c16 12 = 0
      · simp only [if_pos h12]
        by_cases hz2 : bits c16 2 5 = 0
        · simp only [if_pos hz2]
          by_cases hz7 : bits c16 7 5 = 0
          · simp [hz7]
          · simp only [if_neg hz7, Option.map]
            rw [decode32_jalr _ _ hrdf (by norm_num)]
        · simp only [if_neg hz2, Option.map]
          rw [decode32_encR _ _ _ _ _ (by norm_num) hrs2f (by norm_num) (by norm_num)
            hrdf]
          simp only [decodeOp]
      · simp only [if_neg h12]
        by_cases hz2 : bits c16 2 5 = 0
        · simp only [if_pos hz2]
          by_cases hz7 : bits c16 7 5 = 0
          · simp only [if_pos hz7, Option.map]
            decide
          · simp only [if_neg hz7, Option.map]
            rw [decode32_jalr _ _ hrdf (by norm_num)]
        · simp only [if_neg hz2, Option.map]
          rw [decode32_encR _ _ _ _ _ (by norm_num) hrs2f hrdf (by norm_num) hrdf]
          simp only [decodeOp]
    · simp only [expandInst, decodeC16, hq, hf]; rfl
    · -- C.SWSP
      simp only [expandInst, decodeC16, hq, hf, Option.map]
      rw [decode32_sw _ _ _ (by have := cswspOffset_lt c16; omega) hrs2f (by norm_num)]
      rw [toSigned_of_lt 12 _ (by have := cswspOffset_lt c16; norm_num; omega)]
    · simp only [expandInst, decodeC16, hq, hf]; rfl
  · -- quadrant 3: 32-bit encodings, not compressed
    rcases (by omega : bits c16 13 3 = 0 ∨ bits c16 13 3 = 1 ∨ bits c16 13 3 = 2 ∨
        bits c16 13 3 = 3 ∨ bits c16 13 3 = 4 ∨ bits c16 13 3 = 5 ∨
        bits c16 13 3 = 6 ∨ bits c16 13 3 = 7)
      with hf | hf | hf | hf | hf | hf | hf | hf <;>
      (simp only [expandInst, decodeC16, hq, hf]; rfl)

/-- C7: for every legal 16-bit compressed encoding (one the direct
compressed decoder accepts) the expander succeeds, and decoding the
32-bit expansion yields the same decoded operation as decoding the
compressed form directly; for every reserved or illegal 16-bit
pattern the expander fails and `execute16` raises `ILLEGAL_INST`
(RV32 instantiation, `Core<uint32_t>`). -/
theorem compressed_expansion_correct (c16 : Nat) :
    ((expandInst c16).map (decode32 false) = decodeC16 c16) ∧
    (decodeC16 c16 ≠ none → (expandInst c16).isSome = true) ∧
    (∀ c : Core, expandInst c16 = none →
      (c.execute16 c16).trap = some (ILLEGAL_INST, c16)) := by
  refine ⟨expand_decode_agree c16, ?_, ?_⟩
  · intro h
    rcases he : expandInst c16 with - | w
    · rw [← expand_decode_agree c16, he] at h
      simp at h
    · rfl
  · intro c he
    unfold Core.execute16
    rw [he]
    rfl

/-- Witness for C7: `c.addi x1, 1` (0x0085) expands and decodes to
`addi x1, x1, 1`; the all-zero pattern is illegal, the expander
rejects it and executing it traps with `ILLEGAL_INST`. -/
theorem compressed_expansion_correct_witness :
    (expandInst 0x0085).map (decode32 false) = some (.alui .addi 1 1 1) ∧
    (expandInst 0x4505).map (decode32 false) = some (.alui .addi 10 0 1) ∧
    expandInst 0 = none ∧
    ((mkCore 32 8 4).execute16 0).trap = some (ILLEGAL_INST, 0) := by
  refine ⟨?_, ?_, ?_, (compressed_expansion_correct 0).2.2 (mkCore 32 8 4) (by decide)⟩
  · rw [(compressed_expansion_correct 0x0085).1]
    decide
  · rw [(compressed_expansion_correct 0x4505).1]
    decide
  · have h := (compressed_expansion_correct 0).1
    rw [show decodeC16 0 = none from by decide] at h
    rcases he : expandInst 0 with - | w
    · rfl
    · rw [he] at h
      simp at h

end WdRiscv
